import Mathlib

/-!
Verification of the rlvs-discord-bot core against its sources.

The development shallowly embeds the pure logic of the repository:

* `services/standings.py` — HTML standings parsing (`parse_standings`),
  content fingerprinting (`_sha` over `json.dumps(rows)` inside
  `build_standings_embed`), and the upsert engine
  (`upsert_league_standings_message`);
* `bot.py` — the per-league poll step (`poll`);
* `cogs/match_reminders_cog.py` — the reminder sweep (`reminder_loop`);
* `cogs/match_scheduler_cog.py` — date/time parsing (`_parse_mmdd_time`);
* `storage.py` — `StateStore.load` and its getters.

HTML documents are modelled post-tokenisation: a document carries its raw
text (for the bot-protection check, which the code performs on the raw
string) and the list of tables, each table a list of rows, each row a list
of `th`/`td` cells carrying their extracted text (the result of
`get_text(" ", strip=True)` in the code).  Side-effecting collaborators
(Discord channel/message operations) are modelled by explicit oracle
records, and persisted state by explicit state values threaded through the
functions.
-/

namespace RLVS

/-! ## String helpers mirroring the Python primitives used by the code -/

/-- Python `str.lower()` (ASCII-adequate model). -/
def lowerStr (s : String) : String := ⟨s.data.map Char.toLower⟩

/-- Python `str.upper()` (ASCII-adequate model). -/
def upperStr (s : String) : String := ⟨s.data.map Char.toUpper⟩

/-- Contiguous-sublist test on character lists. -/
def isSubListOf (needle hay : List Char) : Bool :=
  match hay with
  | [] => needle.isEmpty
  | _ :: t => needle.isPrefixOf hay || isSubListOf needle t

/-- Python `needle in hay` substring test. -/
def containsSub (hay needle : String) : Bool :=
  isSubListOf needle.toList hay.toList

/-- Whitespace as stripped by `str.strip()` (ASCII-adequate model). -/
def isSpaceChar (c : Char) : Bool :=
  c = ' ' || c = '\t' || c = '\n' || c = '\r'

/-- Python `str.strip()` (whitespace at both ends). -/
def pyStrip (s : String) : String :=
  ⟨((s.data.dropWhile isSpaceChar).reverse.dropWhile isSpaceChar).reverse⟩

/-- Python `str.isdigit()`: non-empty and all digit characters. -/
def pyIsDigit (s : String) : Bool :=
  !s.isEmpty && s.toList.all Char.isDigit

/-- Decimal value of a digit string (the `int(...)` conversion applied
after an `isdigit` check in the code). -/
def strToNat (s : String) : Nat :=
  s.toList.foldl (fun a c => 10 * a + (c.toNat - 48)) 0

/-! ## HTML model -/

/-- A table cell: a `th` or `td` element with its extracted text. -/
inductive Cell where
  | th (text : String)
  | td (text : String)
deriving DecidableEq

def Cell.text : Cell → String
  | .th s => s
  | .td s => s

def Cell.isTh : Cell → Bool
  | .th _ => true
  | .td _ => false

/-- A `tr` element. -/
structure HRow where
  cells : List Cell
deriving DecidableEq

/-- `r.find_all("td")` texts. -/
def HRow.tds (r : HRow) : List String :=
  r.cells.filterMap fun c => match c with | .td s => some s | .th _ => none

/-- `r.find_all(["th", "td"])` texts (document order). -/
def HRow.allCells (r : HRow) : List String := r.cells.map Cell.text

/-- `r.find_all("th")` is non-empty. -/
def HRow.hasTh (r : HRow) : Bool := r.cells.any Cell.isTh

/-- A `table` element: its `tr` rows. -/
abbrev Table := List HRow

/-- A parsed document: raw text plus its tables. -/
structure Html where
  text : String
  tables : List Table
deriving DecidableEq

/-! ## `services/standings.py`: `parse_standings` -/

/-- A standings row: `(rank, team, wl, gw, gl, pm, gb)`. -/
structure Row where
  rank : Nat
  team : String
  wl : String
  gw : String
  gl : String
  pm : String
  gb : String
deriving DecidableEq

/-- `_pick_biggest_table`: the table with the most rows, first wins ties
(Python `max` keeps the first maximal element). -/
def pick_biggest_table (tables : List Table) : Option Table :=
  match tables with
  | [] => none
  | t :: ts => some (ts.foldl (fun best u => if u.length > best.length then u else best) t)

/-- The bot-protection check at the top of `parse_standings`. -/
def cloudflareBlocked (html : String) : Bool :=
  let lowered := lowerStr html
  containsSub lowered "cloudflare" &&
    (containsSub lowered "attention required" || containsSub lowered "verify you are human")

/-- One cell of a candidate header row matches a header keyword. -/
def headerHit (cell : String) : Bool :=
  containsSub cell "TEAM" || containsSub cell "W-L" || containsSub cell "GAMES" ||
    containsSub cell "GB" || containsSub cell "PTS"

/-- The header scan over the first 12 rows: returns the header row index
and the uppercased header cell texts, if found. -/
def findHeaderAux : Nat → List HRow → Option (Nat × List String)
  | _, [] => none
  | i, r :: rs =>
    if 12 ≤ i then none
    else if r.hasTh then some (i, r.allCells.map upperStr)
    else
      let tds := r.tds.map upperStr
      if tds.isEmpty then findHeaderAux (i + 1) rs
      else if 2 ≤ tds.countP headerHit then some (i, tds)
      else findHeaderAux (i + 1) rs

def findHeader (rows : List HRow) : Option (Nat × List String) :=
  findHeaderAux 0 rows

/-- The inner `col(*names)` helper: first header index containing any of
the given keywords as a substring. -/
def colIdx (headers : List String) (names : List String) : Option Nat :=
  headers.findIdx? fun h => names.any fun n => containsSub h n

/-- The six resolved column indices. -/
structure Cols where
  team : Nat
  wl : Nat
  gw : Nat
  gl : Nat
  pm : Nat
  gb : Nat
deriving DecidableEq

/-- Keyword-based column resolution; `none` models the `RuntimeError`
raised (and caught) when any keyword is missing. -/
def resolveCols (headers : List String) : Option Cols := do
  let team ← colIdx headers ["TEAM"]
  let wl ← colIdx headers ["W-L", "W – L", "W/L"]
  let gw ← colIdx headers ["GAMES WON", "WON"]
  let gl ← colIdx headers ["GAMES LOST", "LOST"]
  let pm ← colIdx headers ["+/-", "+/−", "+−", "DIFF"]
  let gb ← colIdx headers ["GB"]
  some ⟨team, wl, gw, gl, pm, gb⟩

/-- The fixed-position fallback columns `1, 2, 3, 4, 5, 7`. -/
def fixedCols : Cols := ⟨1, 2, 3, 4, 5, 7⟩

/-- `get_cell(cells, idx, default)`. -/
def get_cell (cells : List String) (idx : Nat) (default : String) : String :=
  match cells[idx]? with
  | some v => let val := pyStrip v; if val.isEmpty then default else val
  | none => default

/-- The per-row extraction in the main loop of `parse_standings`.
`headerMode = false` corresponds to `header_idx is None` (the `< 8`-cell
skip applies). -/
def extractRow (headerMode : Bool) (cols : Cols) (r : HRow) : Option Row :=
  let cells := r.tds
  if cells.isEmpty then none
  else if !headerMode && cells.length < 8 then none
  else
    let rank_raw := pyStrip (cells.headD "")
    if !pyIsDigit rank_raw then none
    else
      let rank := strToNat rank_raw
      let team := get_cell cells cols.team "—"
      let wl := get_cell cells cols.wl "—"
      let gw := get_cell cells cols.gw "0"
      let gl := get_cell cells cols.gl "0"
      let pm := get_cell cells cols.pm "0"
      let gb := get_cell cells cols.gb "-"
      let gb := if gb = "—" || gb = "" then "-" else gb
      let pm := if pm = "—" || pm = "" then "0" else pm
      some ⟨rank, team, wl, gw, gl, pm, gb⟩

/-- The final `parsed.sort(key=lambda x: x[0])`. -/
def sortRank (l : List Row) : List Row :=
  List.insertionSort (fun a b => a.rank ≤ b.rank) l

/-- Row accumulation over the selected table (header resolution plus the
main extraction loop). -/
def parseTableRows (rows : List HRow) : List Row :=
  match findHeader rows with
  | some (i, headers) =>
    match resolveCols headers with
    | some cols => (rows.drop (i + 1)).filterMap (extractRow true cols)
    | none => rows.filterMap (extractRow false fixedCols)
  | none => rows.filterMap (extractRow false fixedCols)

/-- `parse_standings`: errors model the four `RuntimeError` raises. -/
def parse_standings (h : Html) : Except String (List Row) :=
  if cloudflareBlocked h.text then
    .error "Blocked by Cloudflare / bot protection."
  else
    match pick_biggest_table h.tables with
    | none => .error "No standings table found."
    | some rows =>
      if rows.isEmpty then .error "Standings table has no rows."
      else
        let parsed := parseTableRows rows
        if parsed.isEmpty then
          .error "No team rows parsed from standings (table structure may have changed)."
        else .ok (sortRank parsed)

/-! ## Helper lemmas about the parser -/

/-- The ordering used by the final sort. -/
def rankLe (a b : Row) : Prop := a.rank ≤ b.rank

instance : DecidableRel rankLe := fun a b => Nat.decLe a.rank b.rank

theorem sortRank_sorted (l : List Row) :
    (sortRank l).Sorted (fun a b => a.rank ≤ b.rank) := by
  haveI : IsTotal Row fun a b : Row => a.rank ≤ b.rank :=
    ⟨fun a b => Nat.le_total a.rank b.rank⟩
  haveI : IsTrans Row fun a b : Row => a.rank ≤ b.rank :=
    ⟨fun _ _ _ => Nat.le_trans⟩
  exact List.sorted_insertionSort _ l

theorem sortRank_eq_nil {l : List Row} (h : sortRank l = []) : l = [] := by
  have hlen := List.length_insertionSort (fun a b : Row => a.rank ≤ b.rank) l
  rw [sortRank] at h
  rw [h] at hlen
  exact List.length_eq_zero.mp hlen.symm

theorem pick_biggest_table_eq_none_iff (ts : List Table) :
    pick_biggest_table ts = none ↔ ts = [] := by
  cases ts <;> simp [pick_biggest_table]

theorem findHeaderAux_ne_nil {i : Nat} {rows : List HRow} {v : Nat × List String}
    (h : findHeaderAux i rows = some v) : rows ≠ [] := by
  intro hnil
  rw [hnil] at h
  simp [findHeaderAux] at h

theorem findHeader_ne_nil {rows : List HRow} {v : Nat × List String}
    (h : findHeader rows = some v) : rows ≠ [] :=
  findHeaderAux_ne_nil h

/-- Anatomy of a successful parse: the result is the sorted extraction of
the biggest table. -/
theorem parse_ok_eq {h : Html} {l : List Row} (hp : parse_standings h = .ok l) :
    ∃ tbl, cloudflareBlocked h.text = false ∧
      pick_biggest_table h.tables = some tbl ∧ tbl ≠ [] ∧
      parseTableRows tbl ≠ [] ∧ l = sortRank (parseTableRows tbl) := by
  unfold parse_standings at hp
  split at hp
  · exact absurd hp (by simp)
  · rename_i hcf
    split at hp
    · exact absurd hp (by simp)
    · rename_i tbl hpick
      split at hp
      · exact absurd hp (by simp)
      · rename_i hne
        cases hpe : (parseTableRows tbl).isEmpty with
        | true => simp [hpe] at hp
        | false =>
          simp only [hpe, Bool.false_eq_true, if_false] at hp
          refine ⟨tbl, by simpa using hcf, hpick, ?_, ?_, ?_⟩
          · simpa [List.isEmpty_iff] using hne
          · intro hnil; rw [hnil] at hpe; simp at hpe
          · exact ((Except.ok.injEq _ _).mp hp).symm

theorem parse_ok_sorted {h : Html} {l : List Row} (hp : parse_standings h = .ok l) :
    l.Sorted (fun a b => a.rank ≤ b.rank) := by
  obtain ⟨tbl, -, -, -, -, rfl⟩ := parse_ok_eq hp
  exact sortRank_sorted _

theorem parse_ok_ne_nil {h : Html} {l : List Row} (hp : parse_standings h = .ok l) :
    l ≠ [] := by
  obtain ⟨tbl, -, -, -, hne, rfl⟩ := parse_ok_eq hp
  intro hnil
  exact hne (sortRank_eq_nil hnil)

theorem findIdx?_isSome_of_any {α : Type} {p : α → Bool} :
    ∀ {l : List α} {i : Nat}, l.any p = true → ∃ j, l.findIdx? p i = some j := by
  intro l
  induction l with
  | nil => intro i h; simp at h
  | cons a t ih =>
    intro i h
    rw [List.findIdx?_cons]
    by_cases hpa : p a = true
    · exact ⟨i, by simp [hpa]⟩
    · simp only [List.any_cons, Bool.or_eq_true] at h
      rcases h with h | h
      · exact absurd h hpa
      · obtain ⟨j, hj⟩ := ih (i := i + 1) h
        refine ⟨j, ?_⟩
        rw [if_neg hpa]
        exact hj

theorem colIdx_isSome (hs : List String) (names : List String) (n : String)
    (hmem : n ∈ names) (hany : hs.any (fun c => containsSub c n) = true) :
    ∃ j, colIdx hs names = some j := by
  apply findIdx?_isSome_of_any
  rw [List.any_eq_true] at hany ⊢
  obtain ⟨c, hc, hcn⟩ := hany
  exact ⟨c, hc, by rw [List.any_eq_true]; exact ⟨n, hmem, hcn⟩⟩

/-- If all six keywords occur in the header cells, keyword resolution
succeeds. -/
theorem resolveCols_isSome {hs : List String}
    (hteam : hs.any (fun c => containsSub c "TEAM") = true)
    (hwl : hs.any (fun c => containsSub c "W-L") = true)
    (hgw : hs.any (fun c => containsSub c "GAMES WON") = true)
    (hgl : hs.any (fun c => containsSub c "GAMES LOST") = true)
    (hpm : hs.any (fun c => containsSub c "+/-") = true)
    (hgb : hs.any (fun c => containsSub c "GB") = true) :
    ∃ cols, resolveCols hs = some cols := by
  obtain ⟨j1, h1⟩ := colIdx_isSome hs ["TEAM"] "TEAM" (by simp) hteam
  obtain ⟨j2, h2⟩ := colIdx_isSome hs ["W-L", "W – L", "W/L"] "W-L" (by simp) hwl
  obtain ⟨j3, h3⟩ := colIdx_isSome hs ["GAMES WON", "WON"] "GAMES WON" (by simp) hgw
  obtain ⟨j4, h4⟩ := colIdx_isSome hs ["GAMES LOST", "LOST"] "GAMES LOST" (by simp) hgl
  obtain ⟨j5, h5⟩ := colIdx_isSome hs ["+/-", "+/−", "+−", "DIFF"] "+/-" (by simp) hpm
  obtain ⟨j6, h6⟩ := colIdx_isSome hs ["GB"] "GB" (by simp) hgb
  exact ⟨⟨j1, j2, j3, j4, j5, j6⟩, by simp [resolveCols, h1, h2, h3, h4, h5, h6]⟩

/-- Error/success dichotomy of `parse_standings`, matching the four
`RuntimeError` raises in the code. -/
theorem parse_fails_iff (h : Html) :
    (∃ e, parse_standings h = .error e) ↔
      cloudflareBlocked h.text = true ∨ h.tables = [] ∨
        (∃ tbl, pick_biggest_table h.tables = some tbl ∧ tbl = []) ∨
        (∃ tbl, pick_biggest_table h.tables = some tbl ∧ parseTableRows tbl = []) := by
  constructor
  · rintro ⟨e, he⟩
    by_cases hcf : cloudflareBlocked h.text = true
    · exact Or.inl hcf
    · right
      cases hpick : pick_biggest_table h.tables with
      | none => exact Or.inl ((pick_biggest_table_eq_none_iff _).mp hpick)
      | some tbl =>
        right
        cases htbl : tbl.isEmpty with
        | true => exact Or.inl ⟨tbl, rfl, List.isEmpty_iff.mp htbl⟩
        | false =>
          cases hpe : (parseTableRows tbl).isEmpty with
          | true => exact Or.inr ⟨tbl, rfl, List.isEmpty_iff.mp hpe⟩
          | false =>
            exfalso
            unfold parse_standings at he
            simp [hcf, hpick, htbl, hpe] at he
  · intro hc
    by_cases hcf : cloudflareBlocked h.text = true
    · exact ⟨"Blocked by Cloudflare / bot protection.", by simp [parse_standings, hcf]⟩
    · rcases hc with hc | hc | ⟨tbl, hpick, rfl⟩ | ⟨tbl, hpick, hpe⟩
      · exact absurd hc hcf
      · have hnone : pick_biggest_table h.tables = none :=
          (pick_biggest_table_eq_none_iff _).mpr hc
        exact ⟨"No standings table found.", by simp [parse_standings, hcf, hnone]⟩
      · exact ⟨"Standings table has no rows.", by simp [parse_standings, hcf, hpick]⟩
      · cases htbl : tbl.isEmpty with
        | true =>
          exact ⟨"Standings table has no rows.", by simp [parse_standings, hcf, hpick, htbl]⟩
        | false =>
          exact ⟨"No team rows parsed from standings (table structure may have changed).",
            by simp [parse_standings, hcf, hpick, htbl, hpe]⟩

/-! ## Concrete documents used by the witnesses and counterexample -/

/-- A row of `td` cells. -/
def tdRow (l : List String) : HRow := ⟨l.map Cell.td⟩

/-- A row of `th` cells. -/
def thRow (l : List String) : HRow := ⟨l.map Cell.th⟩

/-- A header whose columns are deliberately shuffled relative to the
fixed-position fallback. -/
def exHs : List String :=
  ["RANK", "GB", "TEAM", "W-L", "GAMES WON", "GAMES LOST", "+/-"]

def exHeaderTable : Table :=
  [thRow exHs,
   tdRow ["2", "1", "Bravo", "1-1", "3", "3", "0"],
   tdRow ["1", "-", "Alpha", "2-0", "6", "2", "+4"]]

def exHeaderHtml : Html := ⟨"league standings page", [exHeaderTable]⟩

/-- A header-less table: two ≥8-cell rows and one short row. -/
def exNoHeaderTable : Table :=
  [tdRow ["1", "Alpha", "2-0", "6", "2", "+4", "x", "-"],
   tdRow ["2", "Bravo", "1-1", "3", "3", "0", "x", "1"],
   tdRow ["3", "Charlie", "0-2"]]

def exNoHeaderHtml : Html := ⟨"plain page", [exNoHeaderTable]⟩

def exCloudflareHtml : Html :=
  ⟨"CloudFlare — Attention Required!", [exNoHeaderTable]⟩

/-- Output of the header-table example. -/
def exHeaderOut : List Row :=
  [⟨1, "Alpha", "2-0", "6", "2", "+4", "-"⟩,
   ⟨2, "Bravo", "1-1", "3", "3", "0", "1"⟩]

/-! ## C4 -/

/-- C4: for a table whose located header row contains the keywords TEAM,
W-L, GAMES WON, GAMES LOST, the plus-minus margin and GB (any column
order), parsing
resolves the six columns by keyword, extracts the rows below the header
with those columns, and returns them sorted ascending by rank; for a
header-less table, rows are extracted at the fixed positions
team=1, wl=2, gw=3, gl=4, pm=5, gb=7, and rows with fewer than 8 cells
are skipped without failing. -/
theorem C4_parse_header_and_fallback :
    (∀ (h : Html) (tbl : Table) (i : Nat) (hs : List String),
        cloudflareBlocked h.text = false →
        pick_biggest_table h.tables = some tbl →
        findHeader tbl = some (i, hs) →
        (hs.any fun c => containsSub c "TEAM") = true →
        (hs.any fun c => containsSub c "W-L") = true →
        (hs.any fun c => containsSub c "GAMES WON") = true →
        (hs.any fun c => containsSub c "GAMES LOST") = true →
        (hs.any fun c => containsSub c "+/-") = true →
        (hs.any fun c => containsSub c "GB") = true →
        ∃ cols, resolveCols hs = some cols ∧
          parse_standings h =
            (if ((tbl.drop (i + 1)).filterMap (extractRow true cols)).isEmpty then
              Except.error "No team rows parsed from standings (table structure may have changed)."
            else Except.ok (sortRank ((tbl.drop (i + 1)).filterMap (extractRow true cols)))) ∧
          ∀ l, parse_standings h = .ok l → l.Sorted fun a b => a.rank ≤ b.rank)
    ∧ (∀ (h : Html) (tbl : Table),
        cloudflareBlocked h.text = false →
        pick_biggest_table h.tables = some tbl →
        tbl ≠ [] →
        findHeader tbl = none →
        parse_standings h =
          (if (tbl.filterMap (extractRow false fixedCols)).isEmpty then
            Except.error "No team rows parsed from standings (table structure may have changed)."
          else Except.ok (sortRank (tbl.filterMap (extractRow false fixedCols)))))
    ∧ (∀ (cols : Cols) (r : HRow), r.tds.length < 8 → extractRow false cols r = none)
    ∧ fixedCols = ⟨1, 2, 3, 4, 5, 7⟩ := by
  refine ⟨?_, ?_, ?_, rfl⟩
  · intro h tbl i hs hcf hpick hfh hteam hwl hgw hgl hpm hgb
    obtain ⟨cols, hcols⟩ := resolveCols_isSome hteam hwl hgw hgl hpm hgb
    have htne : tbl.isEmpty = false := by
      cases tbl with
      | nil => exact absurd rfl (findHeader_ne_nil hfh)
      | cons a t => rfl
    refine ⟨cols, hcols, ?_, fun l hl => parse_ok_sorted hl⟩
    unfold parse_standings
    rw [if_neg (by simp [hcf]), hpick]
    simp only [htne, Bool.false_eq_true, if_false]
    rw [show parseTableRows tbl = (tbl.drop (i + 1)).filterMap (extractRow true cols) by
      simp [parseTableRows, hfh, hcols]]
  · intro h tbl hcf hpick htne hfh
    have htne' : tbl.isEmpty = false := by
      cases tbl with
      | nil => exact absurd rfl htne
      | cons a t => rfl
    unfold parse_standings
    rw [if_neg (by simp [hcf]), hpick]
    simp only [htne', Bool.false_eq_true, if_false]
    rw [show parseTableRows tbl = tbl.filterMap (extractRow false fixedCols) by
      simp [parseTableRows, hfh]]
  · intro cols r hlt
    unfold extractRow
    by_cases hce : r.tds.isEmpty
    · rw [if_pos hce]
    · rw [if_neg hce, if_pos (by simp [hlt])]

/-- Witness for C4: both branches of the theorem applied to concrete
documents. -/
theorem C4_witness :
    (cloudflareBlocked exHeaderHtml.text = false ∧
      pick_biggest_table exHeaderHtml.tables = some exHeaderTable ∧
      findHeader exHeaderTable = some (0, exHs) ∧
      (exHs.any fun c => containsSub c "TEAM") = true ∧
      (∃ cols, resolveCols exHs = some cols ∧
        parse_standings exHeaderHtml =
          (if ((exHeaderTable.drop 1).filterMap (extractRow true cols)).isEmpty then
            Except.error "No team rows parsed from standings (table structure may have changed)."
          else Except.ok (sortRank ((exHeaderTable.drop 1).filterMap (extractRow true cols)))) ∧
        ∀ l, parse_standings exHeaderHtml = .ok l → l.Sorted fun a b => a.rank ≤ b.rank))
    ∧ (findHeader exNoHeaderTable = none ∧
        parse_standings exNoHeaderHtml =
          (if (exNoHeaderTable.filterMap (extractRow false fixedCols)).isEmpty then
            Except.error "No team rows parsed from standings (table structure may have changed)."
          else Except.ok (sortRank (exNoHeaderTable.filterMap (extractRow false fixedCols)))))
    ∧ extractRow false fixedCols (tdRow ["3", "Charlie", "0-2"]) = none := by
  refine ⟨⟨by decide, by decide, by decide, by decide, ?_⟩, ⟨by decide, ?_⟩, ?_⟩
  · exact C4_parse_header_and_fallback.1 exHeaderHtml exHeaderTable 0 exHs
      (by decide) (by decide) (by decide) (by decide) (by decide) (by decide)
      (by decide) (by decide) (by decide)
  · exact C4_parse_header_and_fallback.2.1 exNoHeaderHtml exNoHeaderTable
      (by decide) (by decide) (by decide) (by decide)
  · exact C4_parse_header_and_fallback.2.2.1 fixedCols (tdRow ["3", "Charlie", "0-2"])
      (by decide)

/-! ## C6 -/

/-- C6: `parse_standings` fails exactly when the bot-protection challenge
is detected, no table is present, the selected (biggest) table has zero
rows, or zero rows survive extraction; on success the returned row list
is non-empty. -/
theorem C6_parse_error_conditions :
    ∀ h : Html,
      ((∃ e, parse_standings h = .error e) ↔
        cloudflareBlocked h.text = true ∨ h.tables = [] ∨
          (∃ tbl, pick_biggest_table h.tables = some tbl ∧ tbl = []) ∨
          (∃ tbl, pick_biggest_table h.tables = some tbl ∧ parseTableRows tbl = []))
      ∧ (∀ l, parse_standings h = .ok l → l ≠ []) :=
  fun h => ⟨parse_fails_iff h, fun _ hl => parse_ok_ne_nil hl⟩

/-- Witness for C6: the challenge-page document fails, and a successful
parse yields a non-empty list. -/
theorem C6_witness :
    (∃ e, parse_standings exCloudflareHtml = .error e) ∧
      parse_standings exNoHeaderHtml = .ok exHeaderOut ∧ exHeaderOut ≠ [] := by
  refine ⟨?_, rfl, ?_⟩
  · exact (C6_parse_error_conditions exCloudflareHtml).1.mpr (Or.inl (by decide))
  · exact (C6_parse_error_conditions exNoHeaderHtml).2 exHeaderOut rfl

/-! ## C8 -/

/-- Two valid data rows carrying the same rank `1`. -/
def cex8Table : Table :=
  [tdRow ["1", "Alpha", "2-0", "6", "2", "+4", "x", "-"],
   tdRow ["1", "Bravo", "1-1", "3", "3", "0", "x", "1"]]

def cex8Html : Html := ⟨"duplicate rank page", [cex8Table]⟩

def cex8Out : List Row :=
  [⟨1, "Alpha", "2-0", "6", "2", "+4", "-"⟩,
   ⟨1, "Bravo", "1-1", "3", "3", "0", "1"⟩]

/-- C8 counterexample: `parse_standings` succeeds on a document with two
rank-1 rows and returns both, so the returned rank values are neither
unique nor strictly increasing (the code never de-duplicates ranks). -/
theorem C8_counterexample :
    parse_standings cex8Html = .ok cex8Out ∧
      cex8Out.map Row.rank = [1, 1] ∧
      ¬ (cex8Out.map Row.rank).Pairwise (fun a b => a < b) := by
  refine ⟨rfl, rfl, fun hp => ?_⟩
  have h11 : (1 : Nat) < 1 := by
    have := List.pairwise_cons.mp hp
    exact this.1 1 (by simp)
  omega

/-- C8 amended: rank values in a successful parse are sorted ascending
(non-decreasing; duplicate ranks are kept), and every source row whose
first cell does not parse as a numeric rank is discarded by the row
extraction. -/
theorem C8_ranks_sorted_and_nonnumeric_discarded :
    (∀ (h : Html) (l : List Row), parse_standings h = .ok l →
        l.Sorted fun a b => a.rank ≤ b.rank)
    ∧ (∀ (mode : Bool) (cols : Cols) (r : HRow),
        pyIsDigit (pyStrip (r.tds.headD "")) = false →
        extractRow mode cols r = none) := by
  refine ⟨fun h l hl => parse_ok_sorted hl, ?_⟩
  intro mode cols r hnd
  unfold extractRow
  by_cases h1 : r.tds.isEmpty
  · rw [if_pos h1]
  · rw [if_neg h1]
    by_cases h2 : (!mode && decide (r.tds.length < 8)) = true
    · rw [if_pos h2]
    · rw [if_neg h2]
      simp only [hnd, Bool.not_false, if_true]

/-- Witness for the amended C8. -/
theorem C8_amended_witness :
    parse_standings exHeaderHtml = .ok exHeaderOut ∧
      exHeaderOut.Sorted (fun a b => a.rank ≤ b.rank) ∧
      pyIsDigit (pyStrip ((tdRow ["footer", "a", "b", "c", "d", "e", "f", "g"]).tds.headD "")) = false ∧
      extractRow true fixedCols (tdRow ["footer", "a", "b", "c", "d", "e", "f", "g"]) = none := by
  refine ⟨rfl, ?_, by decide, ?_⟩
  · exact C8_ranks_sorted_and_nonnumeric_discarded.1 exHeaderHtml exHeaderOut rfl
  · exact C8_ranks_sorted_and_nonnumeric_discarded.2 true fixedCols
      (tdRow ["footer", "a", "b", "c", "d", "e", "f", "g"]) (by decide)

/-! ## Association-list primitives modelling Python dict get/set -/

/-- `d.get(k)`. -/
def lookupA {α β : Type} [DecidableEq α] (l : List (α × β)) (k : α) : Option β :=
  (l.find? fun p => p.1 = k).map Prod.snd

/-- `d[k] = v`: replace the (unique) binding in place if present, else
append — insertion-order-preserving, as for a Python dict. -/
def setA {α β : Type} [DecidableEq α] : List (α × β) → α → β → List (α × β)
  | [], k, v => [(k, v)]
  | p :: t, k, v => if p.1 = k then (k, v) :: t else p :: setA t k v

theorem lookupA_setA_self {α β : Type} [DecidableEq α] (l : List (α × β)) (k : α) (v : β) :
    lookupA (setA l k v) k = some v := by
  induction l with
  | nil => simp [setA, lookupA, List.find?]
  | cons p t ih =>
    by_cases hp : p.1 = k
    · simp [setA, lookupA, List.find?, hp]
    · simp only [setA, if_neg hp, lookupA, List.find?]
      rw [decide_eq_false hp]
      simpa [lookupA] using ih

theorem lookupA_setA_ne {α β : Type} [DecidableEq α] (l : List (α × β)) (k k' : α) (v : β)
    (h : k' ≠ k) : lookupA (setA l k v) k' = lookupA l k' := by
  induction l with
  | nil =>
    have hk : decide (k = k') = false := decide_eq_false fun hh => h hh.symm
    simp [setA, lookupA, List.find?, hk]
  | cons p t ih =>
    by_cases hp : p.1 = k
    · have hp' : ¬(p.1 = k') := by rw [hp]; exact fun hh => h hh.symm
      simp only [setA, if_pos hp, lookupA, List.find?]
      rw [decide_eq_false (fun hh => h hh.symm), decide_eq_false hp']
    · simp only [setA, if_neg hp, lookupA, List.find?]
      cases hq : decide (p.1 = k')
      · simpa [lookupA] using ih
      · simp

/-! ## `storage.py` standings section and `services/standings.py` upsert -/

/-- The slice of the persisted `StateStore` the standings pipeline touches:
per-league `last_hash` and `message_id` buckets plus per-(guild, league)
standings channels. -/
structure StoreState where
  lastHash : List (String × String)
  messageId : List (String × Nat)
  standingsChannels : List ((Nat × String) × Nat)
deriving DecidableEq

/-- `StateStore.get_last_hash(league_key)`. -/
def get_last_hash (st : StoreState) (key : String) : Option String :=
  lookupA st.lastHash key

/-- `StateStore.set_last_hash(league_key, new_hash)`. -/
def set_last_hash (st : StoreState) (key : String) (newHash : String) : StoreState :=
  ⟨setA st.lastHash key newHash, st.messageId, st.standingsChannels⟩

/-- `StateStore.get_standings_message_id(league_key)`. -/
def get_standings_message_id (st : StoreState) (key : String) : Option Nat :=
  lookupA st.messageId key

/-- `StateStore.set_standings_message_id(league_key, message_id)`. -/
def set_standings_message_id (st : StoreState) (key : String) (mid : Nat) : StoreState :=
  ⟨st.lastHash, setA st.messageId key mid, st.standingsChannels⟩

/-- `StateStore.get_standings_channel(guild_id, league_key)`. -/
def get_standings_channel (st : StoreState) (gid : Nat) (key : String) : Option Nat :=
  lookupA st.standingsChannels (gid, key)

/-- `leagues.League`. -/
structure League where
  key : String
  name : String
  standings_url : String
  channel_id : Nat
deriving DecidableEq

/-- The Discord-side collaborators of the upsert engine, as oracles:
channel resolution, message fetch, message edit, message send. -/
structure DiscordWorld where
  channelOk : Nat → Bool
  fetchOk : Nat → Bool
  editOk : Nat → Bool
  sendOk : Bool
  newId : Nat

/-- Side-effect counters for one upsert call. -/
structure UpsertEffects where
  fetches : Nat
  edits : Nat
  creates : Nat
deriving DecidableEq

/-- `_resolve_standings_channel_id`: admin-configured per-guild channel
first, env fallback second, `0` meaning unconfigured (Python truthiness:
a stored `0` falls through). -/
def resolve_standings_channel_id (st : StoreState) (gid : Nat) (lg : League) : Nat :=
  match get_standings_channel st gid lg.key with
  | some cid => if cid ≠ 0 then cid else if lg.channel_id ≠ 0 then lg.channel_id else 0
  | none => if lg.channel_id ≠ 0 then lg.channel_id else 0

/-- The `channel.send` + `store.set_standings_message_id` tail of the
upsert (reached when there is no usable previous message). -/
def createMessagePath (w : DiscordWorld) (lg : League) (st : StoreState)
    (eff : UpsertEffects) : Except String (Nat × StoreState × UpsertEffects) :=
  if w.sendOk then
    .ok (w.newId, set_standings_message_id st lg.key w.newId,
      ⟨eff.fetches, eff.edits, eff.creates + 1⟩)
  else .error "send failed"

/-- `upsert_league_standings_message`: edit in place when a previous
message id is recorded and fetchable, otherwise send a new message and
record its id.  The result carries the message id returned, the updated
store and the effect counters. -/
def upsert_league_standings_message (w : DiscordWorld) (gid : Nat) (lg : League)
    (st : StoreState) : Except String (Nat × StoreState × UpsertEffects) :=
  let channel_id := resolve_standings_channel_id st gid lg
  if channel_id = 0 then .error "standings channel not configured yet."
  else if !w.channelOk channel_id then .error "Channel ID must point to a text channel."
  else
    match get_standings_message_id st lg.key with
    | some mid =>
      if mid ≠ 0 then
        if w.fetchOk mid then
          if w.editOk mid then .ok (mid, st, ⟨1, 1, 0⟩)
          else createMessagePath w lg st ⟨1, 1, 0⟩
        else createMessagePath w lg st ⟨1, 0, 0⟩
      else createMessagePath w lg st ⟨0, 0, 0⟩
    | none => createMessagePath w lg st ⟨0, 0, 0⟩

/-- The per-league body of the `poll` loop in `bot.py`, with the freshly
computed fingerprint `key` as input.  The returned flag records whether
the publish/upsert engine was invoked.  Errors raised by the upsert are
caught at the per-league boundary (state keeps whatever was persisted). -/
def pollStep (w : DiscordWorld) (gid : Nat) (lg : League) (key : String)
    (st : StoreState) : StoreState × Bool :=
  let last := get_last_hash st lg.key
  if last = some key then (st, false)
  else
    let st1 := set_last_hash st lg.key key
    match upsert_league_standings_message w gid lg st1 with
    | .ok (_, st2, _) => (st2, true)
    | .error _ => (st1, true)

/-- The upsert never touches the `last_hash` bucket. -/
theorem upsert_preserves_lastHash {w : DiscordWorld} {gid : Nat} {lg : League}
    {st : StoreState} {m : Nat} {st' : StoreState} {eff : UpsertEffects}
    (h : upsert_league_standings_message w gid lg st = .ok (m, st', eff)) :
    st'.lastHash = st.lastHash := by
  simp only [upsert_league_standings_message, createMessagePath] at h
  repeat' split at h
  all_goals
    first
      | exact Except.noConfusion h
      | (injection h with hh; cases hh; rfl)

/-! ## C2 -/

/-- C2: with a recorded non-zero previous message id whose fetch and edit
succeed and a configured, resolvable channel, the upsert takes the edit
path — one edit, zero creates, store unchanged — and therefore the second
of two back-to-back calls with the unchanged view again performs exactly
one edit call, zero create calls, and records no new message id. -/
theorem C2_upsert_idempotent_publish :
    ∀ (w : DiscordWorld) (gid : Nat) (lg : League) (st : StoreState) (mid : Nat),
      resolve_standings_channel_id st gid lg ≠ 0 →
      w.channelOk (resolve_standings_channel_id st gid lg) = true →
      get_standings_message_id st lg.key = some mid →
      mid ≠ 0 →
      w.fetchOk mid = true →
      w.editOk mid = true →
      upsert_league_standings_message w gid lg st = .ok (mid, st, ⟨1, 1, 0⟩) ∧
      ∀ m1 st1 e1, upsert_league_standings_message w gid lg st = .ok (m1, st1, e1) →
        upsert_league_standings_message w gid lg st1 = .ok (mid, st1, ⟨1, 1, 0⟩) := by
  intro w gid lg st mid hch hchok hmid hmne hf he
  have h1 : upsert_league_standings_message w gid lg st = .ok (mid, st, ⟨1, 1, 0⟩) := by
    unfold upsert_league_standings_message
    simp [hch, hchok, hmid, hmne, hf, he]
  refine ⟨h1, ?_⟩
  intro m1 st1 e1 heq
  rw [h1] at heq
  obtain ⟨h1', h2', h3'⟩ : mid = m1 ∧ st = st1 ∧ (⟨1, 1, 0⟩ : UpsertEffects) = e1 := by
    simpa using heq
  rw [← h2']
  exact h1

/-- Concrete instances shared by the upsert/poll witnesses. -/
def wEx : DiscordWorld := ⟨fun _ => true, fun _ => true, fun _ => true, true, 555⟩

def lgEx : League := ⟨"champion", "Champion", "https://example/standings", 42⟩

def stEx : StoreState :=
  ⟨[("champion", "abc")], [("champion", 777)], [((1, "champion"), 900)]⟩

/-- Witness for C2. -/
theorem C2_witness :
    resolve_standings_channel_id stEx 1 lgEx ≠ 0 ∧
      get_standings_message_id stEx lgEx.key = some 777 ∧
      upsert_league_standings_message wEx 1 lgEx stEx = .ok (777, stEx, ⟨1, 1, 0⟩) ∧
      (∀ m1 st1 e1, upsert_league_standings_message wEx 1 lgEx stEx = .ok (m1, st1, e1) →
        upsert_league_standings_message wEx 1 lgEx st1 = .ok (777, st1, ⟨1, 1, 0⟩)) := by
  have h := C2_upsert_idempotent_publish wEx 1 lgEx stEx 777
    (by decide) (by decide) (by decide) (by decide) (by decide) (by decide)
  exact ⟨by decide, by decide, h.1, h.2⟩

/-! ## C9 -/

/-- C9: on the successful edit path the persisted state is left entirely
unchanged (no create happens, nothing is rewritten); in every successful
upsert the stored message id is (re)written only on the create path, where
the whole state change is exactly recording the new id under the league
key. -/
theorem C9_edit_path_leaves_state_unchanged :
    (∀ (w : DiscordWorld) (gid : Nat) (lg : League) (st : StoreState) (mid : Nat),
      resolve_standings_channel_id st gid lg ≠ 0 →
      w.channelOk (resolve_standings_channel_id st gid lg) = true →
      get_standings_message_id st lg.key = some mid →
      mid ≠ 0 →
      w.fetchOk mid = true →
      w.editOk mid = true →
      ∃ eff, upsert_league_standings_message w gid lg st = .ok (mid, st, eff) ∧
        eff.creates = 0)
    ∧ (∀ (w : DiscordWorld) (gid : Nat) (lg : League) (st : StoreState)
        (m : Nat) (st' : StoreState) (eff : UpsertEffects),
        upsert_league_standings_message w gid lg st = .ok (m, st', eff) →
        st' = st ∨ (eff.creates = 1 ∧ m = w.newId ∧
          st' = set_standings_message_id st lg.key w.newId)) := by
  constructor
  · intro w gid lg st mid hch hchok hmid hmne hf he
    refine ⟨⟨1, 1, 0⟩, ?_, rfl⟩
    unfold upsert_league_standings_message
    simp [hch, hchok, hmid, hmne, hf, he]
  · intro w gid lg st m st' eff h
    simp only [upsert_league_standings_message, createMessagePath] at h
    repeat' split at h
    all_goals
      first
        | exact Except.noConfusion h
        | (injection h with hh; cases hh
           first
             | exact Or.inl rfl
             | exact Or.inr ⟨rfl, rfl, rfl⟩)

/-- Witness for C9. -/
theorem C9_witness :
    (∃ eff, upsert_league_standings_message wEx 1 lgEx stEx = .ok (777, stEx, eff) ∧
      eff.creates = 0) ∧
    (stEx = stEx ∨ ((⟨1, 1, 0⟩ : UpsertEffects).creates = 1 ∧ 777 = wEx.newId ∧
      stEx = set_standings_message_id stEx lgEx.key wEx.newId)) := by
  refine ⟨?_, ?_⟩
  · exact C9_edit_path_leaves_state_unchanged.1 wEx 1 lgEx stEx 777
      (by decide) (by decide) (by decide) (by decide) (by decide) (by decide)
  · exact C9_edit_path_leaves_state_unchanged.2 wEx 1 lgEx stEx 777 stEx ⟨1, 1, 0⟩ rfl

/-! ## C3 -/

/-- C3: the poll step skips the publish entirely (state unchanged) when the
fresh fingerprint equals the persisted one; otherwise it persists the new
fingerprint and then invokes the upsert, so even a failed publish leaves
the new fingerprint stored. -/
theorem C3_poll_persists_hash_before_publish :
    ∀ (w : DiscordWorld) (gid : Nat) (lg : League) (key : String) (st : StoreState),
      (get_last_hash st lg.key = some key → pollStep w gid lg key st = (st, false))
      ∧ (get_last_hash st lg.key ≠ some key →
          (pollStep w gid lg key st).2 = true ∧
          get_last_hash (pollStep w gid lg key st).1 lg.key = some key ∧
          ∀ e, upsert_league_standings_message w gid lg (set_last_hash st lg.key key) = .error e →
            pollStep w gid lg key st = (set_last_hash st lg.key key, true)) := by
  intro w gid lg key st
  constructor
  · intro hs
    unfold pollStep
    rw [if_pos hs]
  · intro hs
    have hset : get_last_hash (set_last_hash st lg.key key) lg.key = some key := by
      unfold get_last_hash set_last_hash
      exact lookupA_setA_self _ _ _
    refine ⟨?_, ?_, ?_⟩
    · unfold pollStep
      rw [if_neg hs]
      cases hres : upsert_league_standings_message w gid lg (set_last_hash st lg.key key) with
      | ok v => rcases v with ⟨m, st2, eff⟩; simp [hres]
      | error e => simp [hres]
    · unfold pollStep
      rw [if_neg hs]
      cases hres : upsert_league_standings_message w gid lg (set_last_hash st lg.key key) with
      | ok v =>
        rcases v with ⟨m, st2, eff⟩
        simp only [hres]
        have := upsert_preserves_lastHash hres
        unfold get_last_hash
        rw [this]
        exact hset
      | error e => simp only [hres]; exact hset
    · intro e he
      simp [pollStep, hs, he]

/-- A world in which every fetch/edit/send fails. -/
def wFailEx : DiscordWorld := ⟨fun _ => true, fun _ => false, fun _ => false, false, 0⟩

/-- Witness for C3: an unchanged fingerprint skips, a changed fingerprint
is persisted even though the upsert is forced to fail. -/
theorem C3_witness :
    (get_last_hash stEx lgEx.key = some "abc" ∧
      pollStep wEx 1 lgEx "abc" stEx = (stEx, false)) ∧
    (get_last_hash stEx lgEx.key ≠ some "def" ∧
      (pollStep wFailEx 1 lgEx "def" stEx).2 = true ∧
      get_last_hash (pollStep wFailEx 1 lgEx "def" stEx).1 lgEx.key = some "def") := by
  refine ⟨⟨by decide, ?_⟩, ⟨by decide, ?_, ?_⟩⟩
  · exact (C3_poll_persists_hash_before_publish wEx 1 lgEx "abc" stEx).1 (by decide)
  · exact ((C3_poll_persists_hash_before_publish wFailEx 1 lgEx "def" stEx).2 (by decide)).1
  · exact ((C3_poll_persists_hash_before_publish wFailEx 1 lgEx "def" stEx).2 (by decide)).2.1

/-! ## `cogs/match_reminders_cog.py`: the reminder sweep -/

/-- A scheduled-match record as read by the reminder loop.  `schedTime`
is the result of `_parse_dt` (epoch seconds; `none` = unparseable
`scheduled_iso`); `remindersSent` is the per-threshold sent dict. -/
structure MatchRec where
  id : String
  league : String
  team : String
  opponent : String
  schedTime : Option Int
  guildId : Nat
  channelId : Nat
  remindersSent : List (String × Bool)
deriving DecidableEq

/-- Discord collaborators of the sweep: guild resolution, text-channel
resolution, and per-(match, threshold) delivery success. -/
structure ReminderWorld where
  guildOk : Nat → Bool
  channelOk : Nat → Nat → Bool
  sendOk : String → String → Bool

/-- The fixed threshold table `rules` (in seconds). -/
def rules : List (String × Int) := [("24h", 86400), ("1h", 3600)]

/-- `reminders_sent.get(key)` truthiness. -/
def getSent (m : MatchRec) (k : String) : Bool :=
  (lookupA m.remindersSent k).getD false

/-- `reminders_sent[key] = True`. -/
def markSent (m : MatchRec) (k : String) : MatchRec :=
  { m with remindersSent := setA m.remindersSent k true }

@[simp] theorem markSent_id (m : MatchRec) (k : String) : (markSent m k).id = m.id := rfl

@[simp] theorem markSent_schedTime (m : MatchRec) (k : String) :
    (markSent m k).schedTime = m.schedTime := rfl

@[simp] theorem markSent_guildId (m : MatchRec) (k : String) :
    (markSent m k).guildId = m.guildId := rfl

@[simp] theorem markSent_channelId (m : MatchRec) (k : String) :
    (markSent m k).channelId = m.channelId := rfl

@[simp] theorem getSent_markSent_self (m : MatchRec) (k : String) :
    getSent (markSent m k) k = true := by
  simp [getSent, markSent, lookupA_setA_self]

theorem getSent_markSent_ne (m : MatchRec) {k k' : String} (h : k' ≠ k) :
    getSent (markSent m k) k' = getSent m k' := by
  simp [getSent, markSent, lookupA_setA_ne _ _ _ _ h]

@[simp] theorem getSent_markSent_24_1 (m : MatchRec) :
    getSent (markSent m "24h") "1h" = getSent m "1h" :=
  getSent_markSent_ne m (by decide)

@[simp] theorem getSent_markSent_1_24 (m : MatchRec) :
    getSent (markSent m "1h") "24h" = getSent m "24h" :=
  getSent_markSent_ne m (by decide)

/-- The body of `for key, delta in rules`. -/
def applyRule (w : ReminderWorld) (now dt : Int) (acc : MatchRec × List String)
    (rule : String × Int) : MatchRec × List String :=
  if getSent acc.1 rule.1 then acc
  else if now ≥ dt - rule.2 then
    if w.sendOk acc.1.id rule.1 then (markSent acc.1 rule.1, acc.2 ++ [rule.1]) else acc
  else acc

/-- Processing one match inside the `reminder_loop` tick: skip records
with unparseable or elapsed times or missing/unresolvable guild/channel,
else evaluate both thresholds in order, marking a threshold sent only
after its delivery succeeds. -/
def sweepMatch (w : ReminderWorld) (now : Int) (m : MatchRec) :
    MatchRec × List String :=
  match m.schedTime with
  | none => (m, [])
  | some dt =>
    if dt ≤ now then (m, [])
    else if m.guildId = 0 || m.channelId = 0 then (m, [])
    else if !w.guildOk m.guildId then (m, [])
    else if !w.channelOk m.guildId m.channelId then (m, [])
    else rules.foldl (applyRule w now dt) (m, [])

/-- One `reminder_loop` tick over all matches: each match is swept
independently; the second component lists the notifications
(match id, threshold) sent this tick. -/
def reminder_loop (w : ReminderWorld) (now : Int) (ms : List MatchRec) :
    List MatchRec × List (String × String) :=
  (ms.map fun m => (sweepMatch w now m).1,
   (ms.map fun m => (sweepMatch w now m).2.map fun k => (m.id, k)).flatten)

theorem sweep_skip_past (w : ReminderWorld) (now : Int) (m : MatchRec) (dt : Int)
    (hst : m.schedTime = some dt) (hle : dt ≤ now) : sweepMatch w now m = (m, []) := by
  simp [sweepMatch, hst, hle]

theorem sweep_skip_unparseable (w : ReminderWorld) (now : Int) (m : MatchRec)
    (hst : m.schedTime = none) : sweepMatch w now m = (m, []) := by
  simp [sweepMatch, hst]

/-- One rule application either leaves the accumulator untouched (not
due, already sent, or delivery failed) or fires: conditions recorded. -/
theorem applyRule_eq_or_fire (w : ReminderWorld) (now dt : Int) (mm : MatchRec)
    (sent : List String) (key : String) (delta : Int) :
    (applyRule w now dt (mm, sent) (key, delta) = (mm, sent) ∧
      (getSent mm key = true ∨ ¬ (dt - delta ≤ now) ∨ w.sendOk mm.id key = false))
    ∨ (getSent mm key = false ∧ (dt - delta ≤ now) ∧ w.sendOk mm.id key = true ∧
        applyRule w now dt (mm, sent) (key, delta) = (markSent mm key, sent ++ [key])) := by
  unfold applyRule
  split_ifs with h1 h2 h3
  · exact Or.inl ⟨rfl, Or.inl h1⟩
  · exact Or.inr ⟨by simpa using h1, by omega, h3, rfl⟩
  · exact Or.inl ⟨rfl, Or.inr (Or.inr (by simpa using h3))⟩
  · exact Or.inl ⟨rfl, Or.inr (Or.inl (by omega))⟩

/-- Either the sweep skips the match wholesale, or every guard passed and
the result is the two rule applications in order. -/
theorem sweepMatch_cases (w : ReminderWorld) (now : Int) (m : MatchRec) :
    sweepMatch w now m = (m, []) ∨
    ∃ dt, m.schedTime = some dt ∧ now < dt ∧
      (m.guildId = 0 || m.channelId = 0) = false ∧ w.guildOk m.guildId = true ∧
      w.channelOk m.guildId m.channelId = true ∧
      sweepMatch w now m =
        applyRule w now dt (applyRule w now dt (m, []) ("24h", 86400)) ("1h", 3600) := by
  cases hst : m.schedTime with
  | none => exact Or.inl (sweep_skip_unparseable w now m hst)
  | some dt =>
    by_cases h1 : dt ≤ now
    · exact Or.inl (sweep_skip_past w now m dt hst h1)
    · by_cases h2 : (m.guildId = 0 || m.channelId = 0) = true
      · exact Or.inl (by simp [sweepMatch, hst, h1, h2])
      · by_cases h3 : w.guildOk m.guildId = true
        · by_cases h4 : w.channelOk m.guildId m.channelId = true
          · refine Or.inr ⟨dt, rfl, by omega, by simpa using h2, h3, h4, ?_⟩
            simp [sweepMatch, hst, h1, h2, h3, h4, rules]
          · exact Or.inl (by simp [sweepMatch, hst, h1, h2, h3, h4])
        · exact Or.inl (by simp [sweepMatch, hst, h1, h3])

/-- All guards passing gives the two-rule evaluation directly. -/
theorem sweepMatch_active (w : ReminderWorld) (now : Int) (m : MatchRec) (dt : Int)
    (hst : m.schedTime = some dt) (h1 : now < dt)
    (h2 : (m.guildId = 0 || m.channelId = 0) = false)
    (h3 : w.guildOk m.guildId = true) (h4 : w.channelOk m.guildId m.channelId = true) :
    sweepMatch w now m =
      applyRule w now dt (applyRule w now dt (m, []) ("24h", 86400)) ("1h", 3600) := by
  have h1' : ¬ dt ≤ now := by omega
  simp [sweepMatch, hst, h1', h2, h3, h4, rules]

/-- A threshold key is emitted only if its rule fired: scheduled time
strictly in the future, due, not previously sent, and delivery succeeded. -/
theorem sweep_sent_conditions (w : ReminderWorld) (now : Int) (m : MatchRec)
    (k : String) (delta : Int) (hmem : (k, delta) ∈ rules)
    (hk : k ∈ (sweepMatch w now m).2) :
    ∃ dt, m.schedTime = some dt ∧ now < dt ∧ dt - delta ≤ now ∧
      getSent m k = false ∧ w.sendOk m.id k = true := by
  rcases sweepMatch_cases w now m with hskip | ⟨dt, hst, hlt, hgz, hg, hc, heq⟩
  · rw [hskip] at hk; simp at hk
  · rw [heq] at hk
    rcases applyRule_eq_or_fire w now dt m [] "24h" 86400 with
      ⟨he1, -⟩ | ⟨hs1, hd1, hok1, he1⟩
    · rw [he1] at hk
      rcases applyRule_eq_or_fire w now dt m [] "1h" 3600 with
        ⟨he2, -⟩ | ⟨hs2, hd2, hok2, he2⟩
      · rw [he2] at hk; simp at hk
      · rw [he2] at hk
        simp at hk
        subst hk
        have hdelta : delta = 3600 := by simpa [rules] using hmem
        exact ⟨dt, hst, hlt, by omega, hs2, hok2⟩
    · rw [he1] at hk
      simp only [List.nil_append] at hk
      rcases applyRule_eq_or_fire w now dt (markSent m "24h") ["24h"] "1h" 3600 with
        ⟨he2, -⟩ | ⟨hs2, hd2, hok2, he2⟩
      · rw [he2] at hk
        simp at hk
        subst hk
        have hdelta : delta = 86400 := by simpa [rules] using hmem
        exact ⟨dt, hst, hlt, by omega, hs1, hok1⟩
      · rw [he2] at hk
        simp at hk
        rcases hk with rfl | rfl
        · have hdelta : delta = 86400 := by simpa [rules] using hmem
          exact ⟨dt, hst, hlt, by omega, hs1, hok1⟩
        · have hdelta : delta = 3600 := by simpa [rules] using hmem
          refine ⟨dt, hst, hlt, by omega, ?_, ?_⟩
          · simpa using hs2
          · simpa using hok2

/-- Any threshold emitted this sweep ends with its flag set. -/
theorem sweep_mem_flag (w : ReminderWorld) (now : Int) (m : MatchRec) (k : String)
    (hk : k ∈ (sweepMatch w now m).2) :
    getSent (sweepMatch w now m).1 k = true := by
  rcases sweepMatch_cases w now m with hskip | ⟨dt, hst, hlt, hgz, hg, hc, heq⟩
  · rw [hskip] at hk; simp at hk
  · rw [heq] at hk ⊢
    rcases applyRule_eq_or_fire w now dt m [] "24h" 86400 with
      ⟨he1, -⟩ | ⟨hs1, hd1, hok1, he1⟩
    · rw [he1] at hk ⊢
      rcases applyRule_eq_or_fire w now dt m [] "1h" 3600 with
        ⟨he2, -⟩ | ⟨hs2, hd2, hok2, he2⟩
      · rw [he2] at hk; simp at hk
      · rw [he2] at hk ⊢
        simp at hk
        subst hk
        simp
    · rw [he1] at hk ⊢
      simp only [List.nil_append] at hk ⊢
      rcases applyRule_eq_or_fire w now dt (markSent m "24h") ["24h"] "1h" 3600 with
        ⟨he2, -⟩ | ⟨hs2, hd2, hok2, he2⟩
      · rw [he2] at hk ⊢
        simp at hk
        subst hk
        simp
      · rw [he2] at hk ⊢
        simp at hk
        rcases hk with rfl | rfl <;> simp

/-- The flag can become set only by a send of this sweep. -/
theorem sweep_flag_from_send (w : ReminderWorld) (now : Int) (m : MatchRec) (k : String)
    (hf : getSent (sweepMatch w now m).1 k = true) :
    getSent m k = true ∨ k ∈ (sweepMatch w now m).2 := by
  rcases sweepMatch_cases w now m with hskip | ⟨dt, hst, hlt, hgz, hg, hc, heq⟩
  · rw [hskip] at hf; exact Or.inl hf
  · rw [heq] at hf ⊢
    rcases applyRule_eq_or_fire w now dt m [] "24h" 86400 with
      ⟨he1, -⟩ | ⟨hs1, hd1, hok1, he1⟩
    · rw [he1] at hf ⊢
      rcases applyRule_eq_or_fire w now dt m [] "1h" 3600 with
        ⟨he2, -⟩ | ⟨hs2, hd2, hok2, he2⟩
      · rw [he2] at hf; exact Or.inl hf
      · rw [he2] at hf ⊢
        by_cases hk1 : k = "1h"
        · subst hk1; exact Or.inr (by simp)
        · rw [getSent_markSent_ne m hk1] at hf; exact Or.inl hf
    · rw [he1] at hf ⊢
      simp only [List.nil_append] at hf ⊢
      rcases applyRule_eq_or_fire w now dt (markSent m "24h") ["24h"] "1h" 3600 with
        ⟨he2, -⟩ | ⟨hs2, hd2, hok2, he2⟩
      · rw [he2] at hf ⊢
        by_cases hk24 : k = "24h"
        · subst hk24; exact Or.inr (by simp)
        · rw [getSent_markSent_ne m hk24] at hf; exact Or.inl hf
      · rw [he2] at hf ⊢
        by_cases hk1 : k = "1h"
        · subst hk1; exact Or.inr (by simp)
        · by_cases hk24 : k = "24h"
          · subst hk24; exact Or.inr (by simp)
          · rw [getSent_markSent_ne _ hk1, getSent_markSent_ne m hk24] at hf
            exact Or.inl hf

/-- A failed delivery leaves the flag exactly as it was. -/
theorem sweep_failed_frame (w : ReminderWorld) (now : Int) (m : MatchRec) (k : String)
    (hsend : w.sendOk m.id k = false) :
    getSent (sweepMatch w now m).1 k = getSent m k := by
  rcases sweepMatch_cases w now m with hskip | ⟨dt, hst, hlt, hgz, hg, hc, heq⟩
  · rw [hskip]
  · rw [heq]
    rcases applyRule_eq_or_fire w now dt m [] "24h" 86400 with
      ⟨he1, -⟩ | ⟨hs1, hd1, hok1, he1⟩
    · rw [he1]
      rcases applyRule_eq_or_fire w now dt m [] "1h" 3600 with
        ⟨he2, -⟩ | ⟨hs2, hd2, hok2, he2⟩
      · rw [he2]
      · rw [he2]
        have hk1 : k ≠ "1h" := by
          intro hkk; rw [hkk] at hsend; rw [hsend] at hok2; exact Bool.noConfusion hok2
        exact getSent_markSent_ne m hk1
    · rw [he1]
      simp only [List.nil_append]
      have hk24 : k ≠ "24h" := by
        intro hkk; rw [hkk] at hsend; rw [hsend] at hok1; exact Bool.noConfusion hok1
      rcases applyRule_eq_or_fire w now dt (markSent m "24h") ["24h"] "1h" 3600 with
        ⟨he2, -⟩ | ⟨hs2, hd2, hok2, he2⟩
      · rw [he2]
        exact getSent_markSent_ne m hk24
      · rw [he2]
        have hk1 : k ≠ "1h" := by
          intro hkk; rw [hkk] at hsend
          rw [markSent_id] at hok2
          rw [hsend] at hok2; exact Bool.noConfusion hok2
        rw [getSent_markSent_ne _ hk1]
        exact getSent_markSent_ne m hk24

/-- A due, unsent, deliverable threshold of a future match fires, and the
flag ends set. -/
theorem sweep_fires_when_due (w : ReminderWorld) (now : Int) (m : MatchRec)
    (k : String) (delta : Int) (hmem : (k, delta) ∈ rules) (dt : Int)
    (hst : m.schedTime = some dt) (hlt : now < dt) (hdue : dt - delta ≤ now)
    (hunsent : getSent m k = false)
    (hgz : (m.guildId = 0 || m.channelId = 0) = false)
    (hg : w.guildOk m.guildId = true) (hc : w.channelOk m.guildId m.channelId = true)
    (hsend : w.sendOk m.id k = true) :
    k ∈ (sweepMatch w now m).2 ∧ getSent (sweepMatch w now m).1 k = true := by
  have heq := sweepMatch_active w now m dt hst hlt hgz hg hc
  rw [heq]
  have hmem' : (k = "24h" ∧ delta = 86400) ∨ (k = "1h" ∧ delta = 3600) := by
    simpa [rules, Prod.ext_iff] using hmem
  rcases hmem' with ⟨rfl, rfl⟩ | ⟨rfl, rfl⟩
  · rcases applyRule_eq_or_fire w now dt m [] "24h" 86400 with
      ⟨he1, hc1⟩ | ⟨-, -, -, he1⟩
    · rcases hc1 with h | h | h
      · rw [hunsent] at h; exact Bool.noConfusion h
      · exact absurd hdue h
      · rw [hsend] at h; exact Bool.noConfusion h
    · rw [he1]
      simp only [List.nil_append]
      rcases applyRule_eq_or_fire w now dt (markSent m "24h") ["24h"] "1h" 3600 with
        ⟨he2, -⟩ | ⟨-, -, -, he2⟩
      · rw [he2]; exact ⟨by simp, by simp⟩
      · rw [he2]; exact ⟨by simp, by simp⟩
  · rcases applyRule_eq_or_fire w now dt m [] "24h" 86400 with
      ⟨he1, -⟩ | ⟨-, -, -, he1⟩
    · rw [he1]
      rcases applyRule_eq_or_fire w now dt m [] "1h" 3600 with
        ⟨he2, hc2⟩ | ⟨-, -, -, he2⟩
      · rcases hc2 with h | h | h
        · rw [hunsent] at h; exact Bool.noConfusion h
        · exact absurd hdue h
        · rw [hsend] at h; exact Bool.noConfusion h
      · rw [he2]; exact ⟨by simp, by simp⟩
    · rw [he1]
      simp only [List.nil_append]
      rcases applyRule_eq_or_fire w now dt (markSent m "24h") ["24h"] "1h" 3600 with
        ⟨he2, hc2⟩ | ⟨-, -, -, he2⟩
      · rcases hc2 with h | h | h
        · rw [getSent_markSent_24_1, hunsent] at h; exact Bool.noConfusion h
        · exact absurd hdue h
        · rw [markSent_id, hsend] at h; exact Bool.noConfusion h
      · rw [he2]; exact ⟨by simp, by simp⟩

/-- A repeated sweep at the same simulated time never fires a threshold
that was just sent. -/
theorem sweep_no_refire (w : ReminderWorld) (now : Int) (m : MatchRec)
    (k : String) (delta : Int) (hmem : (k, delta) ∈ rules)
    (hk : k ∈ (sweepMatch w now m).2) :
    k ∉ (sweepMatch w now (sweepMatch w now m).1).2 := by
  intro hk2
  obtain ⟨dt, -, -, -, hunsent, -⟩ :=
    sweep_sent_conditions w now (sweepMatch w now m).1 k delta hmem hk2
  have hflag := sweep_mem_flag w now m k hk
  rw [hunsent] at hflag
  exact Bool.noConfusion hflag

/-! ## C1 -/

/-- C1: per match and per threshold (24h and 1h): the sweep sends a
threshold's notification only when the scheduled time is strictly in the
future, the current time is at or past scheduled minus threshold, the
threshold is not yet marked, and delivery succeeds; the mark is set only
by a successful send and a failed send leaves it untouched (so the next
tick retries); a due, unsent, deliverable threshold does fire and ends
marked; a repeated sweep at the same simulated time never fires it again;
matches with elapsed or unparseable times are never evaluated; and the
tick processes every match record independently. -/
theorem C1_reminder_threshold_state_machine :
    ∀ (w : ReminderWorld) (now : Int) (m : MatchRec) (k : String) (delta : Int),
      (k, delta) ∈ rules →
      ((∀ dt, m.schedTime = some dt → dt ≤ now → sweepMatch w now m = (m, [])) ∧
       (m.schedTime = none → sweepMatch w now m = (m, []))) ∧
      (k ∈ (sweepMatch w now m).2 →
        ∃ dt, m.schedTime = some dt ∧ now < dt ∧ dt - delta ≤ now ∧
          getSent m k = false ∧ w.sendOk m.id k = true) ∧
      (getSent (sweepMatch w now m).1 k = true →
        getSent m k = true ∨ k ∈ (sweepMatch w now m).2) ∧
      (w.sendOk m.id k = false →
        getSent (sweepMatch w now m).1 k = getSent m k) ∧
      (∀ dt, m.schedTime = some dt → now < dt → dt - delta ≤ now →
        getSent m k = false →
        (m.guildId = 0 || m.channelId = 0) = false →
        w.guildOk m.guildId = true → w.channelOk m.guildId m.channelId = true →
        w.sendOk m.id k = true →
        k ∈ (sweepMatch w now m).2 ∧ getSent (sweepMatch w now m).1 k = true) ∧
      (k ∈ (sweepMatch w now m).2 → k ∉ (sweepMatch w now (sweepMatch w now m).1).2) ∧
      (∀ ms, reminder_loop w now ms =
        (ms.map fun m1 => (sweepMatch w now m1).1,
         (ms.map fun m1 => (sweepMatch w now m1).2.map fun kk => (m1.id, kk)).flatten)) :=
  fun w now m k delta hmem =>
    ⟨⟨fun dt hst hle => sweep_skip_past w now m dt hst hle,
      sweep_skip_unparseable w now m⟩,
     sweep_sent_conditions w now m k delta hmem,
     sweep_flag_from_send w now m k,
     sweep_failed_frame w now m k,
     fun dt hst hlt hdue hq hgz hg hc hs =>
       sweep_fires_when_due w now m k delta hmem dt hst hlt hdue hq hgz hg hc hs,
     sweep_no_refire w now m k delta hmem,
     fun _ => rfl⟩

/-- Concrete reminder world and match for the C1 witness. -/
def wRem : ReminderWorld := ⟨fun _ => true, fun _ _ => true, fun _ _ => true⟩

def mRem : MatchRec :=
  ⟨"AB12CD", "champion", "Angels", "Devils", some 100000, 5, 7, []⟩

/-- Witness for C1: at `now = 96400` (inside both windows) both
thresholds fire once and are marked; at `now = 200000` the match has
elapsed and is skipped. -/
theorem C1_witness :
    (("24h", (86400 : Int)) ∈ rules) ∧
    (mRem.schedTime = some 100000 ∧ (100000 : Int) ≤ 200000 ∧
      sweepMatch wRem 200000 mRem = (mRem, [])) ∧
    ("24h" ∈ (sweepMatch wRem 96400 mRem).2 ∧
      getSent (sweepMatch wRem 96400 mRem).1 "24h" = true) ∧
    ("24h" ∉ (sweepMatch wRem 96400 (sweepMatch wRem 96400 mRem).1).2) := by
  have h := C1_reminder_threshold_state_machine wRem 96400 mRem "24h" 86400 (by simp [rules])
  have hpast := C1_reminder_threshold_state_machine wRem 200000 mRem "24h" 86400 (by simp [rules])
  refine ⟨by simp [rules], ⟨rfl, by omega, ?_⟩, ?_, ?_⟩
  · exact hpast.1.1 100000 rfl (by omega)
  · exact h.2.2.2.2.1 100000 rfl (by omega) (by omega) (by decide) (by decide)
      (by decide) (by decide) (by decide)
  · exact h.2.2.2.2.2.1 (h.2.2.2.2.1 100000 rfl (by omega) (by omega) (by decide)
      (by decide) (by decide) (by decide) (by decide)).1

/-! ## `cogs/match_scheduler_cog.py`: `_parse_mmdd_time` -/

def digitVal (c : Char) : Nat := c.toNat - 48

/-- `\s*` skipping (ASCII-adequate). -/
def skipSpaces (cs : List Char) : List Char := cs.dropWhile isSpaceChar

/-- `(\d{1,2})`: one or two digits, greedily. -/
def readNum12 : List Char → Option (Nat × List Char)
  | [] => none
  | c :: rest =>
    if c.isDigit then
      match rest with
      | c2 :: r2 =>
        if c2.isDigit then some (10 * digitVal c + digitVal c2, r2)
        else some (digitVal c, rest)
      | [] => some (digitVal c, [])
    else none

/-- `(\d{2})`: exactly two digits. -/
def readNum2 : List Char → Option (Nat × List Char)
  | c1 :: c2 :: rest =>
    if c1.isDigit && c2.isDigit then some (10 * digitVal c1 + digitVal c2, rest)
    else none
  | _ => none

/-- `_DATE_RE`: `^\s*(\d{1,2})/(\d{1,2})\s*$` returning (month, day). -/
def date_re_match (s : String) : Option (Nat × Nat) :=
  match readNum12 (skipSpaces s.toList) with
  | none => none
  | some (month, r1) =>
    match r1 with
    | '/' :: r2 =>
      match readNum12 r2 with
      | none => none
      | some (day, r3) =>
        if (skipSpaces r3).isEmpty then some (month, day) else none
    | _ => none

/-- `_TIME_RE`: `^\s*(\d{1,2}):(\d{2})\s*([ap]m)\s*$` (case-insensitive),
returning (hour, minute, lowercased am/pm group). -/
def time_re_match (s : String) : Option (Nat × Nat × String) :=
  match readNum12 (skipSpaces s.toList) with
  | none => none
  | some (hour, r1) =>
    match r1 with
    | ':' :: r2 =>
      match readNum2 r2 with
      | none => none
      | some (minute, r3) =>
        match skipSpaces r3 with
        | a :: mc :: r5 =>
          if (a = 'a' || a = 'A' || a = 'p' || a = 'P') && (mc = 'm' || mc = 'M') then
            if (skipSpaces r5).isEmpty then
              some (hour, minute, if a = 'a' || a = 'A' then "am" else "pm")
            else none
          else none
        | _ => none
    | _ => none

/-- A timezone-aware Python `datetime` in the league timezone (the model
carries only the wall-clock fields; a single fixed zone is in play). -/
structure PyDateTime where
  year : Nat
  month : Nat
  day : Nat
  hour : Nat
  minute : Nat
deriving DecidableEq

def isLeapYear (y : Nat) : Bool :=
  (y % 4 = 0 && y % 100 ≠ 0) || y % 400 = 0

def daysInMonth (y m : Nat) : Nat :=
  if m = 2 then (if isLeapYear y then 29 else 28)
  else if m = 4 || m = 6 || m = 9 || m = 11 then 30
  else 31

def validDate (y m d : Nat) : Bool :=
  1 ≤ m && m ≤ 12 && 1 ≤ d && d ≤ daysInMonth y m

/-- The `datetime(...)` constructor: validates its fields. -/
def mkDateTime (y mo d h mi : Nat) : Except String PyDateTime :=
  if validDate y mo d = false then .error "day/month value out of range"
  else if 24 ≤ h then .error "hour must be in 0..23"
  else if 60 ≤ mi then .error "minute must be in 0..59"
  else .ok ⟨y, mo, d, h, mi⟩

/-- The two sequential am/pm adjustments. -/
def to24h (hour0 : Nat) (ampm : String) : Nat :=
  if ampm = "pm" && hour0 ≠ 12 then hour0 + 12
  else if ampm = "am" && hour0 = 12 then 0
  else hour0

/-- `dt.date() < now.date()` for dates sharing `now.year`:
lexicographic on (month, day). -/
def mdLt (a b : Nat × Nat) : Bool :=
  a.1 < b.1 || (a.1 = b.1 && a.2 < b.2)

/-- `_parse_mmdd_time` with the ambient `datetime.now(TZ)` passed in. -/
def parse_mmdd_time (now : PyDateTime) (date_mmdd time_str : String) :
    Except String PyDateTime :=
  match date_re_match date_mmdd, time_re_match time_str with
  | some (month, day), some (hour0, minute, ampm) =>
    let hour := to24h hour0 ampm
    match mkDateTime now.year month day hour minute with
    | .error e => .error e
    | .ok dt =>
      if mdLt (dt.month, dt.day) (now.month, now.day) then
        mkDateTime (now.year + 1) month day hour minute
      else .ok dt
  | _, _ =>
    .error "Invalid date or time format. Use M/D and H:MMam/pm (e.g. 1/14 and 9:30pm)."

/-! ## C7 -/

/-- C7: a well-formed `M/D` token and 12-hour am/pm token resolve to a
timestamp built with the current year, rolled forward by one year exactly
when (month, day) is strictly before today's (month, day); malformed
tokens fail with the `ValueError` naming the expected formats. -/
theorem C7_date_rollover_and_validation :
    (∀ (now : PyDateTime) (ds ts : String) (month day hour0 minute : Nat) (ampm : String),
      date_re_match ds = some (month, day) →
      time_re_match ts = some (hour0, minute, ampm) →
      validDate now.year month day = true →
      validDate (now.year + 1) month day = true →
      to24h hour0 ampm < 24 →
      minute < 60 →
      parse_mmdd_time now ds ts =
        .ok ⟨(if mdLt (month, day) (now.month, now.day) then now.year + 1 else now.year),
          month, day, to24h hour0 ampm, minute⟩)
    ∧ (∀ (now : PyDateTime) (ds ts : String),
        date_re_match ds = none ∨ time_re_match ts = none →
        parse_mmdd_time now ds ts =
          .error "Invalid date or time format. Use M/D and H:MMam/pm (e.g. 1/14 and 9:30pm).") := by
  constructor
  · intro now ds ts month day hour0 minute ampm hd ht hv1 hv2 hh hm
    have hmk1 : mkDateTime now.year month day (to24h hour0 ampm) minute =
        .ok ⟨now.year, month, day, to24h hour0 ampm, minute⟩ := by
      unfold mkDateTime
      rw [if_neg (by simp [hv1]), if_neg (by omega), if_neg (by omega)]
    have hmk2 : mkDateTime (now.year + 1) month day (to24h hour0 ampm) minute =
        .ok ⟨now.year + 1, month, day, to24h hour0 ampm, minute⟩ := by
      unfold mkDateTime
      rw [if_neg (by simp [hv2]), if_neg (by omega), if_neg (by omega)]
    unfold parse_mmdd_time
    rw [hd, ht]
    simp only [hmk1]
    by_cases hroll : mdLt (month, day) (now.month, now.day) = true
    case pos => simp [hroll, hmk2]
    case neg => simp [hroll]
  · intro now ds ts hbad
    unfold parse_mmdd_time
    rcases hbad with hbad | hbad
    · rw [hbad]
    · rw [hbad]
      cases hd : date_re_match ds with
      | none => rfl
      | some v => rcases v with ⟨mo, d⟩; rfl

/-- Witness for C7: "1/2" scheduled when now is 12/30 resolves to next
year's January 2 at 9:30pm; a malformed date token yields the
format-naming error. -/
theorem C7_witness :
    date_re_match "1/2" = some (1, 2) ∧
    time_re_match "9:30pm" = some (9, 30, "pm") ∧
    parse_mmdd_time ⟨2025, 12, 30, 8, 0⟩ "1/2" "9:30pm" =
      .ok ⟨2026, 1, 2, 21, 30⟩ ∧
    date_re_match "1-2" = none ∧
    parse_mmdd_time ⟨2025, 12, 30, 8, 0⟩ "1-2" "9:30pm" =
      .error "Invalid date or time format. Use M/D and H:MMam/pm (e.g. 1/14 and 9:30pm)." := by
  refine ⟨by decide, by decide, ?_, by decide, ?_⟩
  · have h := C7_date_rollover_and_validation.1 ⟨2025, 12, 30, 8, 0⟩ "1/2" "9:30pm"
      1 2 9 30 "pm" (by decide) (by decide) (by decide) (by decide) (by decide) (by decide)
    simpa using h
  · exact C7_date_rollover_and_validation.2 ⟨2025, 12, 30, 8, 0⟩ "1-2" "9:30pm"
      (Or.inl (by decide))

/-! ## `storage.py`: `StateStore.load` over a JSON document model -/

/-- A JSON value. -/
inductive Json where
  | null
  | bool (b : Bool)
  | num (n : Int)
  | str (s : String)
  | arr (xs : List Json)
  | obj (kvs : List (String × Json))

/-- What reading the state file can produce: no file, a read/parse
failure (`json.loads` raised), or a parsed JSON document. -/
inductive FileRead where
  | missing
  | unreadable
  | content (j : Json)

/-- The in-memory `StateStore`: its `_state` dict. -/
structure StateStore where
  state : List (String × Json)

/-- `StateStore.load`. -/
def StateStore.load : FileRead → StateStore
  | .missing => ⟨[]⟩
  | .unreadable => ⟨[]⟩
  | .content j =>
    match j with
    | .obj kvs => ⟨kvs⟩
    | _ => ⟨[]⟩

/-- `d.get(k)` on a JSON object. -/
def jget (kvs : List (String × Json)) (k : String) : Option Json :=
  lookupA kvs k

/-- `int(x)` for a JSON value, `none` for the `except Exception` paths
(absent value, null, list, dict, or a non-numeric string). -/
def pyInt : Option Json → Option Int
  | some (.num n) => some n
  | some (.bool b) => some (if b then 1 else 0)
  | some (.str s) =>
    let t := pyStrip s
    if pyIsDigit t then some (strToNat t : Int) else none
  | _ => none

/-- `_guild_bucket` as a read (the in-memory `setdefault` writes do not
change any value a getter returns). -/
def guildBucket (st : StateStore) (gid : String) : List (String × Json) :=
  match jget st.state "guilds" with
  | some (.obj gs) =>
    match lookupA gs gid with
    | some (.obj b) => b
    | _ => []
  | _ => []

/-- `GuildConfig` as built by `get_guild_config`: raw stored values plus
the `scheduler_enabled` truthiness with default `True`. -/
structure GuildConfig where
  standings_channel_id : Option Json
  logs_channel_id : Option Json
  announcements_channel_id : Option Json
  scheduler_enabled : Bool

/-- Python `bool(x)` truthiness of an optional JSON value with
dict-get default `True` when absent. -/
def truthyDefaultTrue : Option Json → Bool
  | none => true
  | some .null => false
  | some (.bool b) => b
  | some (.num n) => n ≠ 0
  | some (.str s) => s ≠ ""
  | some (.arr xs) => !xs.isEmpty
  | some (.obj kvs) => !kvs.isEmpty

def get_guild_config (st : StateStore) (gid : String) : GuildConfig :=
  let b := guildBucket st gid
  ⟨jget b "standings_channel_id", jget b "logs_channel_id",
    jget b "announcements_channel_id",
    truthyDefaultTrue (jget b "scheduler_enabled")⟩

/-- `get_channel` for the three legal channel types (an unknown type
raises `ValueError` by contract, modelled as `none` input never used). -/
def get_channel (st : StateStore) (gid : String) (channel_type : String) :
    Except String (Option Json) :=
  let cfg := get_guild_config st gid
  if channel_type = "standings" then .ok cfg.standings_channel_id
  else if channel_type = "logs" then .ok cfg.logs_channel_id
  else if channel_type = "announcements" then .ok cfg.announcements_channel_id
  else .error "Unknown channel_type"

def get_schedule_channel (st : StateStore) (gid : String) (league_key : String) :
    Option Int :=
  match jget (guildBucket st gid) "schedule_channels" with
  | some (.obj sc) => pyInt (lookupA sc league_key)
  | _ => none

def get_schedule_message_id (st : StateStore) (gid : String) (league_key : String) :
    Option Int :=
  match jget (guildBucket st gid) "schedule_message_ids" with
  | some (.obj ids) => pyInt (lookupA ids league_key)
  | _ => none

def get_current_week (st : StateStore) (gid : String) (league_key : String) : Int :=
  let weeks :=
    match jget (guildBucket st gid) "current_week" with
    | some (.obj w) => w
    | _ => []
  match lookupA weeks league_key with
  | none => 1
  | some v => (pyInt (some v)).getD 1

def get_logs_channel (st : StateStore) (gid : String) : Option Int :=
  pyInt (jget (guildBucket st gid) "logs_channel_id")

def get_announcements_channel (st : StateStore) (gid : String) : Option Int :=
  pyInt (jget (guildBucket st gid) "announcements_channel_id")

def get_standings_channel_j (st : StateStore) (gid : String) (league_key : String) :
    Option Int :=
  match jget (guildBucket st gid) "standings_channels" with
  | some (.obj sc) => pyInt (lookupA sc league_key)
  | _ => none

/-- `_standings_bucket` as a read. -/
def standingsBucket (st : StateStore) (league_key : String) : List (String × Json) :=
  match jget st.state "standings" with
  | some (.obj s) =>
    match lookupA s league_key with
    | some (.obj b) => b
    | _ => []
  | _ => []

def get_last_hash_j (st : StateStore) (league_key : String) : Option String :=
  match jget (standingsBucket st league_key) "last_hash" with
  | some (.str s) => some s
  | _ => none

def get_standings_message_id_j (st : StateStore) (league_key : String) : Option Int :=
  pyInt (jget (standingsBucket st league_key) "message_id")

def get_last_hash_global (st : StateStore) : Option String :=
  match jget st.state "last_hash" with
  | some (.str s) => some s
  | _ => none

def get_standings_message_id_global (st : StateStore) : Option Int :=
  pyInt (jget st.state "standings_message_id")

def get_scheduled_matches_j (st : StateStore) : List Json :=
  match jget st.state "scheduled_matches" with
  | some (.arr xs) => xs.filter fun j => match j with | .obj _ => true | _ => false
  | _ => []

/-! ## C10 -/

/-- C10: `StateStore.load` is total: a missing file, an unreadable or
malformed file, and a non-object top-level document all load as the empty
state; every getter on the empty state returns its documented default
(`None`, `[]`, week `1`, `scheduler_enabled=True`) rather than failing. -/
theorem C10_load_never_fails_defaults :
    (StateStore.load .missing = ⟨[]⟩) ∧
    (StateStore.load .unreadable = ⟨[]⟩) ∧
    (∀ j : Json, (∀ kvs, j ≠ .obj kvs) → StateStore.load (.content j) = ⟨[]⟩) ∧
    (∀ kvs, StateStore.load (.content (.obj kvs)) = ⟨kvs⟩) ∧
    (∀ gid key : String,
      get_last_hash_global ⟨[]⟩ = none ∧
      get_standings_message_id_global ⟨[]⟩ = none ∧
      get_guild_config ⟨[]⟩ gid = ⟨none, none, none, true⟩ ∧
      get_channel ⟨[]⟩ gid "standings" = .ok none ∧
      get_channel ⟨[]⟩ gid "logs" = .ok none ∧
      get_channel ⟨[]⟩ gid "announcements" = .ok none ∧
      get_schedule_channel ⟨[]⟩ gid key = none ∧
      get_schedule_message_id ⟨[]⟩ gid key = none ∧
      get_current_week ⟨[]⟩ gid key = 1 ∧
      get_logs_channel ⟨[]⟩ gid = none ∧
      get_announcements_channel ⟨[]⟩ gid = none ∧
      get_standings_channel_j ⟨[]⟩ gid key = none ∧
      get_last_hash_j ⟨[]⟩ key = none ∧
      get_standings_message_id_j ⟨[]⟩ key = none ∧
      get_scheduled_matches_j ⟨[]⟩ = []) := by
  refine ⟨rfl, rfl, ?_, fun kvs => rfl, ?_⟩
  · intro j hj
    cases j with
    | obj kvs => exact absurd rfl (hj kvs)
    | null => rfl
    | bool b => rfl
    | num n => rfl
    | str s => rfl
    | arr xs => rfl
  · intro gid key
    refine ⟨rfl, rfl, rfl, rfl, rfl, rfl, rfl, rfl, rfl, rfl, rfl, rfl, rfl, rfl, rfl⟩

/-- Witness for C10: a top-level JSON array loads as the empty state and
the week getter returns its default on it. -/
theorem C10_witness :
    StateStore.load (.content (.arr [Json.num 3])) = ⟨[]⟩ ∧
    get_current_week (StateStore.load (.content (.arr [Json.num 3]))) "1" "champion" = 1 := by
  have h := C10_load_never_fails_defaults
  refine ⟨h.2.2.1 (.arr [Json.num 3]) (fun kvs hk => Json.noConfusion hk), ?_⟩
  have h2 := (h.2.2.2.2 "1" "champion").2.2.2.2.2.2.2.2.1
  rw [h.2.2.1 (.arr [Json.num 3]) (fun kvs hk => Json.noConfusion hk)]
  exact h2

/-! ## `json.dumps(rows, ensure_ascii=False)`: canonical serialization -/

/-- One lowercase hex digit. -/
def hexDigit (n : Nat) : Char :=
  if n < 10 then Char.ofNat (48 + n) else Char.ofNat (87 + n)

/-- `json` escaping of one character (`ensure_ascii=False`): only the
quote, backslash and control characters are escaped. -/
def escOne (c : Char) : List Char :=
  if c = '"' then ['\\', '"']
  else if c = '\\' then ['\\', '\\']
  else if c = Char.ofNat 8 then ['\\', 'b']
  else if c = Char.ofNat 9 then ['\\', 't']
  else if c = Char.ofNat 10 then ['\\', 'n']
  else if c = Char.ofNat 12 then ['\\', 'f']
  else if c = Char.ofNat 13 then ['\\', 'r']
  else if c.toNat < 32 then
    ['\\', 'u', '0', '0', hexDigit (c.toNat / 16), hexDigit (c.toNat % 16)]
  else [c]

def escList (s : List Char) : List Char := (s.map escOne).flatten

/-- A JSON string literal. -/
def serStr (s : String) : List Char := '"' :: escList s.toList ++ ['"']

/-- Decimal digits of a positive number, most significant first (fuel =
the number itself suffices). -/
def natReprAux : Nat → Nat → List Char
  | 0, _ => []
  | _ + 1, 0 => []
  | fuel + 1, n => natReprAux fuel (n / 10) ++ [Char.ofNat (48 + n % 10)]

/-- Decimal representation, as printed by `json.dumps` for an `int`. -/
def natRepr (n : Nat) : List Char :=
  if n = 0 then ['0'] else natReprAux n n

/-- One row serialized: a JSON array `[rank, "team", ...]` with the
default `", "` item separator. -/
def serRow (r : Row) : List Char :=
  '[' :: natRepr r.rank ++
    (',' :: ' ' :: serStr r.team) ++ (',' :: ' ' :: serStr r.wl) ++
    (',' :: ' ' :: serStr r.gw) ++ (',' :: ' ' :: serStr r.gl) ++
    (',' :: ' ' :: serStr r.pm) ++ (',' :: ' ' :: serStr r.gb) ++ [']']

def serRowsAux : List Row → List Char
  | [] => []
  | [r] => serRow r
  | r :: r2 :: rest => serRow r ++ (',' :: ' ' :: serRowsAux (r2 :: rest))

/-- `json.dumps(rows, ensure_ascii=False)`. -/
def serializeRows (rows : List Row) : String :=
  ⟨'[' :: serRowsAux rows ++ [']']⟩

/-! ## SHA-256 (`hashlib.sha256(. .encode("utf-8")).hexdigest()`) -/

/-- UTF-8 bytes of one scalar value. -/
def utf8Bytes (c : Char) : List Nat :=
  let n := c.toNat
  if n < 128 then [n]
  else if n < 2048 then [192 + n / 64, 128 + n % 64]
  else if n < 65536 then [224 + n / 4096, 128 + (n / 64) % 64, 128 + n % 64]
  else [240 + n / 262144, 128 + (n / 4096) % 64, 128 + (n / 64) % 64, 128 + n % 64]

def strBytes (s : String) : List Nat := (s.toList.map utf8Bytes).flatten

def w32 (n : Nat) : Nat := n % 4294967296

def rotr (x n : Nat) : Nat := w32 ((x >>> n) ||| (x <<< (32 - n)))

def shaS0 (x : Nat) : Nat := rotr x 7 ^^^ rotr x 18 ^^^ (x >>> 3)
def shaS1 (x : Nat) : Nat := rotr x 17 ^^^ rotr x 19 ^^^ (x >>> 10)
def shaB0 (x : Nat) : Nat := rotr x 2 ^^^ rotr x 13 ^^^ rotr x 22
def shaB1 (x : Nat) : Nat := rotr x 6 ^^^ rotr x 11 ^^^ rotr x 25

def shaK : List Nat :=
  [0x428a2f98, 0x71374491, 0xb5c0fbcf, 0xe9b5dba5, 0x3956c25b, 0x59f111f1,
   0x923f82a4, 0xab1c5ed5, 0xd807aa98, 0x12835b01, 0x243185be, 0x550c7dc3,
   0x72be5d74, 0x80deb1fe, 0x9bdc06a7, 0xc19bf174, 0xe49b69c1, 0xefbe4786,
   0x0fc19dc6, 0x240ca1cc, 0x2de92c6f, 0x4a7484aa, 0x5cb0a9dc, 0x76f988da,
   0x983e5152, 0xa831c66d, 0xb00327c8, 0xbf597fc7, 0xc6e00bf3, 0xd5a79147,
   0x06ca6351, 0x14292967, 0x27b70a85, 0x2e1b2138, 0x4d2c6dfc, 0x53380d13,
   0x650a7354, 0x766a0abb, 0x81c2c92e, 0x92722c85, 0xa2bfe8a1, 0xa81a664b,
   0xc24b8b70, 0xc76c51a3, 0xd192e819, 0xd6990624, 0xf40e3585, 0x106aa070,
   0x19a4c116, 0x1e376c08, 0x2748774c, 0x34b0bcb5, 0x391c0cb3, 0x4ed8aa4a,
   0x5b9cca4f, 0x682e6ff3, 0x748f82ee, 0x78a5636f, 0x84c87814, 0x8cc70208,
   0x90befffa, 0xa4506ceb, 0xbef9a3f7, 0xc67178f2]

def shaH0 : List Nat :=
  [0x6a09e667, 0xbb67ae85, 0x3c6ef372, 0xa54ff53a,
   0x510e527f, 0x9b05688c, 0x1f83d9ab, 0x5be0cd19]

/-- Message padding: `0x80`, zeros to 56 mod 64, 8-byte big-endian bit
length. -/
def shaPad (msg : List Nat) : List Nat :=
  let len := msg.length
  let z := (64 - (len + 9) % 64) % 64
  let bits := len * 8
  msg ++ [128] ++ List.replicate z 0 ++
    [bits / 72057594037927936 % 256, bits / 281474976710656 % 256,
     bits / 1099511627776 % 256, bits / 4294967296 % 256,
     bits / 16777216 % 256, bits / 65536 % 256, bits / 256 % 256, bits % 256]

/-- Big-endian 32-bit words from bytes. -/
def toWords : List Nat → List Nat
  | b0 :: b1 :: b2 :: b3 :: rest =>
    (((b0 * 256 + b1) * 256 + b2) * 256 + b3) :: toWords rest
  | _ => []

/-- 512-bit blocks (sixteen words each). -/
def chunk16 : List Nat → List (List Nat)
  | w0 :: w1 :: w2 :: w3 :: w4 :: w5 :: w6 :: w7 ::
      w8 :: w9 :: w10 :: w11 :: w12 :: w13 :: w14 :: w15 :: rest =>
    [w0, w1, w2, w3, w4, w5, w6, w7, w8, w9, w10, w11, w12, w13, w14, w15] ::
      chunk16 rest
  | _ => []

/-- The 64-entry message schedule. -/
def shaSchedule (ws : List Nat) : List Nat :=
  (List.range 48).foldl
    (fun acc _ =>
      let n := acc.length
      acc ++ [w32 (shaS1 (acc.getD (n - 2) 0) + acc.getD (n - 7) 0 +
        shaS0 (acc.getD (n - 15) 0) + acc.getD (n - 16) 0)])
    ws

/-- One compression round. -/
def shaRound (st : List Nat) (kw : Nat × Nat) : List Nat :=
  match st with
  | [a, b, c, d, e, f, g, h] =>
    let ch := (e &&& f) ^^^ ((e ^^^ 4294967295) &&& g)
    let t1 := w32 (h + shaB1 e + ch + kw.1 + kw.2)
    let maj := (a &&& b) ^^^ (a &&& c) ^^^ (b &&& c)
    let t2 := w32 (shaB0 a + maj)
    [w32 (t1 + t2), a, b, c, w32 (d + t1), e, f, g]
  | _ => st

def shaBlock (hs : List Nat) (block : List Nat) : List Nat :=
  let ws := shaSchedule block
  let st := (shaK.zip ws).foldl shaRound hs
  (hs.zip st).map fun p => w32 (p.1 + p.2)

def word8hex (x : Nat) : List Char :=
  [hexDigit (x / 268435456 % 16), hexDigit (x / 16777216 % 16),
   hexDigit (x / 1048576 % 16), hexDigit (x / 65536 % 16),
   hexDigit (x / 4096 % 16), hexDigit (x / 256 % 16),
   hexDigit (x / 16 % 16), hexDigit (x % 16)]

/-- `_sha(text)`: hex digest of SHA-256 over the UTF-8 encoding. -/
def sha (text : String) : String :=
  let hs := (chunk16 (toWords (shaPad (strBytes text)))).foldl shaBlock shaH0
  ⟨(hs.map word8hex).flatten⟩

/-- The fingerprint computed inside `build_standings_embed`:
`_sha(json.dumps(rows, ensure_ascii=False))`. -/
def build_standings_key (rows : List Row) : String :=
  sha (serializeRows rows)

/-! ## A decoder for the canonical serialization (injectivity witness) -/

def valFold (acc : Nat) (ds : List Char) : Nat :=
  ds.foldl (fun a c => 10 * a + digitVal c) acc

/-- Maximal decimal-digit run. -/
def decodeNat (cs : List Char) : Option (Nat × List Char) :=
  let ds := cs.takeWhile Char.isDigit
  if ds.isEmpty then none
  else some (valFold 0 ds, cs.dropWhile Char.isDigit)

def hexVal (c : Char) : Option Nat :=
  if '0' ≤ c ∧ c ≤ '9' then some (c.toNat - 48)
  else if 'a' ≤ c ∧ c ≤ 'f' then some (c.toNat - 87)
  else none

/-- String-literal body after the opening quote, unescaping. -/
def decodeStrBody : List Char → Option (List Char × List Char)
  | [] => none
  | c :: r =>
    if c = '"' then some ([], r)
    else if c = '\\' then
      match r with
      | [] => none
      | e :: r2 =>
        if e = '"' then (decodeStrBody r2).map fun p => ('"' :: p.1, p.2)
        else if e = '\\' then (decodeStrBody r2).map fun p => ('\\' :: p.1, p.2)
        else if e = 'b' then (decodeStrBody r2).map fun p => (Char.ofNat 8 :: p.1, p.2)
        else if e = 't' then (decodeStrBody r2).map fun p => (Char.ofNat 9 :: p.1, p.2)
        else if e = 'n' then (decodeStrBody r2).map fun p => (Char.ofNat 10 :: p.1, p.2)
        else if e = 'f' then (decodeStrBody r2).map fun p => (Char.ofNat 12 :: p.1, p.2)
        else if e = 'r' then (decodeStrBody r2).map fun p => (Char.ofNat 13 :: p.1, p.2)
        else if e = 'u' then
          match r2 with
          | h1 :: h2 :: h3 :: h4 :: r3 =>
            match hexVal h1, hexVal h2, hexVal h3, hexVal h4 with
            | some v1, some v2, some v3, some v4 =>
              (decodeStrBody r3).map fun p =>
                (Char.ofNat (((v1 * 16 + v2) * 16 + v3) * 16 + v4) :: p.1, p.2)
            | _, _, _, _ => none
          | _ => none
        else none
    else (decodeStrBody r).map fun p => (c :: p.1, p.2)

/-- One `", \"<body>\""` field. -/
def decodeField : List Char → Option (List Char × List Char)
  | ',' :: ' ' :: '"' :: r => decodeStrBody r
  | _ => none

/-- One serialized row. -/
def decodeRow (cs : List Char) : Option (Row × List Char) :=
  match cs with
  | '[' :: r0 =>
    match decodeNat r0 with
    | none => none
    | some (rank, r1) =>
      match decodeField r1 with
      | none => none
      | some (team, r2) =>
        match decodeField r2 with
        | none => none
        | some (wl, r3) =>
          match decodeField r3 with
          | none => none
          | some (gw, r4) =>
            match decodeField r4 with
            | none => none
            | some (gl, r5) =>
              match decodeField r5 with
              | none => none
              | some (pm, r6) =>
                match decodeField r6 with
                | none => none
                | some (gb, r7) =>
                  match r7 with
                  | ']' :: r8 =>
                    some (⟨rank, ⟨team⟩, ⟨wl⟩, ⟨gw⟩, ⟨gl⟩, ⟨pm⟩, ⟨gb⟩⟩, r8)
                  | _ => none
  | _ => none

/-- `", "`-separated rows (fuel-bounded). -/
def decodeRowsAux : Nat → List Char → Option (List Row × List Char)
  | 0, _ => none
  | fuel + 1, cs =>
    match decodeRow cs with
    | none => none
    | some (r, rest) =>
      match rest with
      | ',' :: ' ' :: rest2 =>
        match decodeRowsAux fuel rest2 with
        | some (rs, rest3) => some (r :: rs, rest3)
        | none => none
      | _ => some ([r], rest)

def deserializeRows (s : String) : Option (List Row) :=
  match s.toList with
  | '[' :: cs =>
    if cs = [']'] then some []
    else
      match decodeRowsAux (cs.length + 1) cs with
      | some (rs, [']']) => some rs
      | _ => none
  | _ => none

/-! ## Round-trip: the decoder inverts the serializer -/

theorem digitChar_isDigit : ∀ m, m < 10 → (Char.ofNat (48 + m)).isDigit = true := by decide

theorem digitVal_digitChar : ∀ m, m < 10 → digitVal (Char.ofNat (48 + m)) = m := by decide

theorem natReprAux_digits : ∀ fuel n, ∀ c ∈ natReprAux fuel n, c.isDigit = true := by
  intro fuel
  induction fuel with
  | zero => intro n c hc; simp [natReprAux] at hc
  | succ f ih =>
    intro n c hc
    cases n with
    | zero => simp [natReprAux] at hc
    | succ m =>
      have hred : natReprAux (f + 1) (m + 1) =
          natReprAux f ((m + 1) / 10) ++ [Char.ofNat (48 + (m + 1) % 10)] := rfl
      rw [hred] at hc
      rcases List.mem_append.mp hc with hc | hc
      · exact ih _ c hc
      · rw [List.mem_singleton] at hc
        subst hc
        exact digitChar_isDigit _ (Nat.mod_lt _ (by omega))

theorem natRepr_digits (n : Nat) : ∀ c ∈ natRepr n, c.isDigit = true := by
  unfold natRepr
  split
  · intro c hc; rw [List.mem_singleton] at hc; subst hc; decide
  · exact natReprAux_digits n n

theorem natRepr_ne_nil (n : Nat) : natRepr n ≠ [] := by
  unfold natRepr
  split
  · simp
  · rename_i hn
    cases n with
    | zero => exact absurd rfl hn
    | succ m =>
      have hred : natReprAux (m + 1) (m + 1) =
          natReprAux m ((m + 1) / 10) ++ [Char.ofNat (48 + (m + 1) % 10)] := rfl
      rw [hred]
      simp

theorem valFold_append_last (ds : List Char) (c : Char) :
    valFold 0 (ds ++ [c]) = 10 * valFold 0 ds + digitVal c := by
  unfold valFold
  rw [List.foldl_append]
  rfl

theorem valFold_natReprAux : ∀ fuel n, n ≤ fuel → valFold 0 (natReprAux fuel n) = n := by
  intro fuel
  induction fuel with
  | zero => intro n hn; interval_cases n; rfl
  | succ f ih =>
    intro n hn
    cases n with
    | zero => rfl
    | succ m =>
      have hred : natReprAux (f + 1) (m + 1) =
          natReprAux f ((m + 1) / 10) ++ [Char.ofNat (48 + (m + 1) % 10)] := rfl
      rw [hred, valFold_append_last]
      have hdiv : (m + 1) / 10 ≤ f := by omega
      rw [ih _ hdiv, digitVal_digitChar _ (Nat.mod_lt _ (by omega))]
      omega

theorem valFold_natRepr (n : Nat) : valFold 0 (natRepr n) = n := by
  unfold natRepr
  split
  · rename_i h; subst h; rfl
  · exact valFold_natReprAux n n (Nat.le_refl n)

theorem takeWhile_digits (ds : List Char) (x : Char) (xs : List Char)
    (hall : ∀ c ∈ ds, c.isDigit = true) (hx : x.isDigit = false) :
    (ds ++ x :: xs).takeWhile Char.isDigit = ds ∧
      (ds ++ x :: xs).dropWhile Char.isDigit = x :: xs := by
  induction ds with
  | nil => simp [List.takeWhile, List.dropWhile, hx]
  | cons d t ih =>
    have hd : d.isDigit = true := hall d (by simp)
    have ht : ∀ c ∈ t, c.isDigit = true := fun c hc => hall c (by simp [hc])
    obtain ⟨h1, h2⟩ := ih ht
    constructor
    · simp only [List.cons_append, List.takeWhile_cons, hd, if_true, h1]
    · simp only [List.cons_append, List.dropWhile_cons, hd, if_true, h2]

theorem decodeNat_digits_run (ds : List Char) (x : Char) (xs : List Char)
    (hne : ds ≠ []) (hall : ∀ c ∈ ds, c.isDigit = true) (hx : x.isDigit = false) :
    decodeNat (ds ++ x :: xs) = some (valFold 0 ds, x :: xs) := by
  obtain ⟨h1, h2⟩ := takeWhile_digits ds x xs hall hx
  unfold decodeNat
  rw [h1, h2]
  rw [if_neg (by simpa [List.isEmpty_iff] using hne)]

theorem decodeStrBody_cons_other (c : Char) (r : List Char)
    (hq : c ≠ '"') (hb : c ≠ '\\') :
    decodeStrBody (c :: r) = (decodeStrBody r).map fun p => (c :: p.1, p.2) := by
  rw [decodeStrBody.eq_def]
  simp [hq, hb]

theorem hexVal_hexDigit : ∀ v, v < 16 → hexVal (hexDigit v) = some v := by decide

theorem decodeStrBody_unicode (d1 d2 : Char) (v1 v2 : Nat) (r : List Char)
    (h1 : hexVal d1 = some v1) (h2 : hexVal d2 = some v2) :
    decodeStrBody ('\\' :: 'u' :: '0' :: '0' :: d1 :: d2 :: r) =
      (decodeStrBody r).map fun p => (Char.ofNat (v1 * 16 + v2) :: p.1, p.2) := by
  have hz : hexVal '0' = some 0 := rfl
  rw [decodeStrBody.eq_def]
  simp [hz, h1, h2]

theorem decodeStrBody_roundtrip (s rest : List Char) :
    decodeStrBody (escList s ++ '"' :: rest) = some (s, rest) := by
  induction s with
  | nil =>
    have h : escList [] ++ '"' :: rest = '"' :: rest := rfl
    rw [h, decodeStrBody.eq_def]
    rfl
  | cons c cs ih =>
    have hesc : escList (c :: cs) ++ '"' :: rest =
        escOne c ++ (escList cs ++ '"' :: rest) := by
      simp [escList]
    rw [hesc]
    by_cases h1 : c = '"'
    · subst h1
      rw [show escOne '"' ++ (escList cs ++ '"' :: rest) =
        '\\' :: '"' :: (escList cs ++ '"' :: rest) from rfl]
      rw [decodeStrBody.eq_def]
      simp [ih]
    by_cases h2 : c = '\\'
    · subst h2
      rw [show escOne '\\' ++ (escList cs ++ '"' :: rest) =
        '\\' :: '\\' :: (escList cs ++ '"' :: rest) from rfl]
      rw [decodeStrBody.eq_def]
      simp [ih]
    by_cases h3 : c = Char.ofNat 8
    · subst h3
      rw [show escOne (Char.ofNat 8) ++ (escList cs ++ '"' :: rest) =
        '\\' :: 'b' :: (escList cs ++ '"' :: rest) from rfl]
      rw [decodeStrBody.eq_def]
      simp [ih]
    by_cases h4 : c = Char.ofNat 9
    · subst h4
      rw [show escOne (Char.ofNat 9) ++ (escList cs ++ '"' :: rest) =
        '\\' :: 't' :: (escList cs ++ '"' :: rest) from rfl]
      rw [decodeStrBody.eq_def]
      simp [ih]
    by_cases h5 : c = Char.ofNat 10
    · subst h5
      rw [show escOne (Char.ofNat 10) ++ (escList cs ++ '"' :: rest) =
        '\\' :: 'n' :: (escList cs ++ '"' :: rest) from rfl]
      rw [decodeStrBody.eq_def]
      simp [ih]
    by_cases h6 : c = Char.ofNat 12
    · subst h6
      rw [show escOne (Char.ofNat 12) ++ (escList cs ++ '"' :: rest) =
        '\\' :: 'f' :: (escList cs ++ '"' :: rest) from rfl]
      rw [decodeStrBody.eq_def]
      simp [ih]
    by_cases h7 : c = Char.ofNat 13
    · subst h7
      rw [show escOne (Char.ofNat 13) ++ (escList cs ++ '"' :: rest) =
        '\\' :: 'r' :: (escList cs ++ '"' :: rest) from rfl]
      rw [decodeStrBody.eq_def]
      simp [ih]
    by_cases h8 : c.toNat < 32
    · have he : escOne c ++ (escList cs ++ '"' :: rest) =
          '\\' :: 'u' :: '0' :: '0' :: hexDigit (c.toNat / 16) ::
            hexDigit (c.toNat % 16) :: (escList cs ++ '"' :: rest) := by
        unfold escOne
        rw [if_neg h1, if_neg h2, if_neg h3, if_neg h4, if_neg h5, if_neg h6,
          if_neg h7, if_pos h8]
        rfl
      rw [he, decodeStrBody_unicode _ _ _ _ _
        (hexVal_hexDigit _ (by omega)) (hexVal_hexDigit _ (Nat.mod_lt _ (by omega))), ih]
      rw [show c.toNat / 16 * 16 + c.toNat % 16 = c.toNat by omega, Char.ofNat_toNat]
      rfl
    · have he : escOne c ++ (escList cs ++ '"' :: rest) =
          c :: (escList cs ++ '"' :: rest) := by
        unfold escOne
        rw [if_neg h1, if_neg h2, if_neg h3, if_neg h4, if_neg h5, if_neg h6,
          if_neg h7, if_neg h8]
        rfl
      rw [he, decodeStrBody_cons_other c _ h1 h2, ih]
      rfl

theorem decodeField_roundtrip (f : String) (rest : List Char) :
    decodeField (',' :: ' ' :: (serStr f ++ rest)) = some (f.toList, rest) := by
  have h : serStr f ++ rest = '"' :: (escList f.toList ++ ('"' :: rest)) := by
    simp [serStr]
  rw [h]
  have h2 : decodeField (',' :: ' ' :: '"' :: (escList f.toList ++ ('"' :: rest))) =
      decodeStrBody (escList f.toList ++ ('"' :: rest)) := rfl
  rw [h2, decodeStrBody_roundtrip]

theorem decodeRow_roundtrip (r : Row) (rest : List Char) :
    decodeRow (serRow r ++ rest) = some (r, rest) := by
  obtain ⟨rank, team, wl, gw, gl, pm, gb⟩ := r
  have hshape : serRow ⟨rank, team, wl, gw, gl, pm, gb⟩ ++ rest =
      '[' :: (natRepr rank ++ (',' :: ' ' :: (serStr team ++ (',' :: ' ' ::
        (serStr wl ++ (',' :: ' ' :: (serStr gw ++ (',' :: ' ' ::
        (serStr gl ++ (',' :: ' ' :: (serStr pm ++ (',' :: ' ' ::
        (serStr gb ++ (']' :: rest)))))))))))))) := by
    simp [serRow, List.append_assoc]
  rw [hshape]
  have hdn : ∀ xs : List Char, decodeNat (natRepr rank ++ ',' :: xs) = some (rank, ',' :: xs) := by
    intro xs
    rw [decodeNat_digits_run (natRepr rank) ',' xs (natRepr_ne_nil rank)
      (natRepr_digits rank) (by decide), valFold_natRepr]
  simp only [decodeRow, hdn, decodeField_roundtrip]
  rfl

theorem serRow_ne_nil (r : Row) : serRow r ≠ [] := by
  simp [serRow]

theorem decodeRowsAux_roundtrip : ∀ (rows : List Row) (fuel : Nat),
    rows ≠ [] → rows.length ≤ fuel →
    decodeRowsAux fuel (serRowsAux rows ++ [']']) = some (rows, [']']) := by
  intro rows
  induction rows with
  | nil => intro fuel h _; exact absurd rfl h
  | cons r rs ih =>
    intro fuel _ hlen
    cases fuel with
    | zero => simp at hlen
    | succ f =>
      cases rs with
      | nil =>
        have h1 : serRowsAux [r] ++ [']'] = serRow r ++ [']'] := rfl
        rw [h1]
        simp only [decodeRowsAux, decodeRow_roundtrip]
        rfl
      | cons r2 rs2 =>
        have h1 : serRowsAux (r :: r2 :: rs2) ++ [']'] =
            serRow r ++ (',' :: ' ' :: (serRowsAux (r2 :: rs2) ++ [']'])) := by
          simp [serRowsAux]
        rw [h1]
        have hih := ih f (by simp) (by simpa using Nat.le_of_succ_le_succ hlen)
        simp only [decodeRowsAux, decodeRow_roundtrip, hih]

theorem serRowsAux_length : ∀ rows : List Row, rows.length ≤ (serRowsAux rows).length := by
  intro rows
  induction rows with
  | nil => simp [serRowsAux]
  | cons r rs ih =>
    cases rs with
    | nil => simp [serRowsAux, serRow]
    | cons r2 rs2 =>
      have h1 : serRowsAux (r :: r2 :: rs2) =
          serRow r ++ (',' :: ' ' :: serRowsAux (r2 :: rs2)) := rfl
      rw [h1]
      have h2 : 1 ≤ (serRow r).length := by
        cases hs : serRow r with
        | nil => exact absurd hs (serRow_ne_nil r)
        | cons a t => simp
      simp only [List.length_append, List.length_cons] at ih ⊢
      omega

/-- The decoder inverts the serializer. -/
theorem deserializeRows_serializeRows (rows : List Row) :
    deserializeRows (serializeRows rows) = some rows := by
  cases rows with
  | nil => rfl
  | cons r rs =>
    have h1 : (serializeRows (r :: rs)).toList =
        '[' :: (serRowsAux (r :: rs) ++ [']']) := rfl
    have hnn : serRowsAux (r :: rs) ≠ [] := by
      cases rs with
      | nil => exact serRow_ne_nil r
      | cons r2 rs2 =>
        have : serRowsAux (r :: r2 :: rs2) =
            serRow r ++ (',' :: ' ' :: serRowsAux (r2 :: rs2)) := rfl
        rw [this]
        cases hs : serRow r with
        | nil => exact absurd hs (serRow_ne_nil r)
        | cons a t => simp
    have hne : serRowsAux (r :: rs) ++ [']'] ≠ [']'] := by
      intro h
      have hl := congrArg List.length h
      simp at hl
      exact hnn hl
    have hfuel : (r :: rs).length ≤ (serRowsAux (r :: rs) ++ [']']).length + 1 := by
      have := serRowsAux_length (r :: rs)
      simp only [List.length_append, List.length_singleton]
      omega
    unfold deserializeRows
    rw [h1]
    simp only [if_neg hne]
    rw [decodeRowsAux_roundtrip (r :: rs) _ (by simp) hfuel]
    rfl

/-- The canonical serialization is injective: any change to any cell of
any row (also beyond the displayed window) changes the digest input. -/
theorem serializeRows_injective (r1 r2 : List Row)
    (h : serializeRows r1 = serializeRows r2) : r1 = r2 := by
  have h1 := deserializeRows_serializeRows r1
  rw [h, deserializeRows_serializeRows r2] at h1
  exact ((Option.some.injEq _ _).mp h1).symm

/-! ## C5 -/

/-- One display line of `build_standings_embed`. -/
def renderLine (r : Row) : String :=
  let wl := pyStrip (if r.wl = "" then "—" else r.wl)
  let gb0 := pyStrip (if r.gb = "" then "-" else r.gb)
  let gb := if gb0 = "—" || gb0 = "" then "-" else gb0
  "**" ++ (⟨natRepr r.rank⟩ : String) ++ ". " ++ r.team ++ "**  •  `" ++ wl ++
    "`  •  `GB " ++ gb ++ "`"

/-- The embed description: the `top_n`-truncated display. -/
def build_standings_desc (rows : List Row) (top_n : Nat) : String :=
  let lines := (rows.take top_n).map renderLine
  if lines.isEmpty then "—" else String.intercalate "\n\n" lines

/-- 13 rows; the 13th lies beyond the default `top_n = 12` window. -/
def exRows13A : List Row :=
  (List.range 13).map fun i => ⟨i, "T", "1-0", "2", "1", "0", "-"⟩

/-- Same as `exRows13A` except a single cell of row 13. -/
def exRows13B : List Row :=
  (List.range 12).map (fun i => ⟨i, "T", "1-0", "2", "1", "0", "-"⟩) ++
    [⟨12, "U", "1-0", "2", "1", "0", "-"⟩]

set_option maxRecDepth 100000 in
/-- C5: the fingerprint `_sha(json.dumps(rows, ensure_ascii=False))` is a
deterministic digest of the full parsed row sequence: reproducible on
identical input; the serialized digest input is injective in the rows, so
any single cell change — also beyond the `top_n` window — changes the
digest input; concretely, two 13-row lists differing only in row 13
render identically at `top_n = 12` yet fingerprint differently. -/
theorem C5_fingerprint_covers_full_rows :
    (∀ rows : List Row, build_standings_key rows = build_standings_key rows) ∧
    (∀ r1 r2 : List Row, serializeRows r1 = serializeRows r2 → r1 = r2) ∧
    build_standings_desc exRows13A 12 = build_standings_desc exRows13B 12 ∧
    exRows13A ≠ exRows13B ∧
    build_standings_key exRows13A ≠ build_standings_key exRows13B := by
  refine ⟨fun rows => rfl, serializeRows_injective, by decide, by decide, by decide⟩

/-- Witness for C5. -/
theorem C5_witness :
    serializeRows [⟨1, "Alpha", "2-0", "6", "2", "+4", "-"⟩] =
      serializeRows [⟨1, "Alpha", "2-0", "6", "2", "+4", "-"⟩] ∧
    ([⟨1, "Alpha", "2-0", "6", "2", "+4", "-"⟩] : List Row) =
      [⟨1, "Alpha", "2-0", "6", "2", "+4", "-"⟩] :=
  ⟨rfl, C5_fingerprint_covers_full_rows.2.1 _ _ rfl⟩

end RLVS
